import Mathlib

/-!
Verification development for the pictochatter room-synchronization engine.

The definitions below are a shallow embedding of the backend sources:
* `db*` functions embed the SQLite database module (`src/unnamed/part_000`,
  functions `createRoom` .. `cleanupOldData`).  Tables are embedded as lists of
  row structures kept in insertion order; `AUTOINCREMENT` ids are explicit
  counters.  `ORDER BY timestamp ASC/DESC` is embedded as an insertion sort by
  the key `(timestamp, id)` — ids grow in insertion order, so this is the
  stable ascending/descending order the backing index scan produces.
* `mgr*` functions embed `RoomManager` (`src/backend/roomManager.js`).  The
  JavaScript `Map` of active rooms/players is embedded as an association list
  (`Map.set` replaces in place or appends, `Map.delete` removes), matching
  JS `Map` insertion-order semantics.  The opaque `ws` handle is dropped.
* `handle*` functions embed the per-connection WebSocket handlers of
  `src/backend/server.js`; the mutable connection-local variables
  (`playerId`, `playerName`, `currentRoomId`) are the explicit `ConnState`.
  Broadcasts are embedded as the fan-out call records (`broadcastToRoom`'s
  arguments); replies are the messages sent on the handling socket.
  `Date.now()` is an explicit `now : Nat` parameter; `uuidv4()` is an explicit
  `freshId` parameter.  JavaScript truthiness of strings/numbers is embedded
  as `≠ ""` / `≠ 0` at each use site, mirroring the source expression.
-/

namespace Pictochat

/-! ### Payload data -/

structure Point where
  x : Int
  y : Int
deriving DecidableEq

/-- The `{points, color, size, tool}` object stored (JSON-stringified in the
source) in `drawing_events.event_data`; JSON round-tripping is embedded as the
identity. -/
structure EventData where
  points : List Point
  color : String
  size : Nat
  tool : String
deriving DecidableEq

/-! ### Database rows (`createTables` in the db module) -/

structure RoomRow where
  id : String
  name : String
  created_at : Nat
  max_players : Nat
  is_custom : Nat
deriving DecidableEq

structure ChatRow where
  id : Nat
  room_id : String
  player_id : String
  player_name : String
  message : String
  timestamp : Nat
deriving DecidableEq

structure DrawRow where
  id : Nat
  room_id : String
  player_id : String
  event_type : String
  event_data : EventData
  timestamp : Nat
deriving DecidableEq

structure SnapRow where
  id : Nat
  room_id : String
  snapshot_data : String
  timestamp : Nat
deriving DecidableEq

structure DB where
  rooms : List RoomRow
  chat_messages : List ChatRow
  drawing_events : List DrawRow
  canvas_snapshots : List SnapRow
  nextChatId : Nat
  nextDrawId : Nat
  nextSnapId : Nat
deriving DecidableEq

def emptyDB : DB := ⟨[], [], [], [], 1, 1, 1⟩

/-! ### The `(timestamp, id)` ordering key -/

def lexLe (p q : Nat × Nat) : Prop :=
  p.1 < q.1 ∨ (p.1 = q.1 ∧ p.2 ≤ q.2)

def lexLt (p q : Nat × Nat) : Prop :=
  p.1 < q.1 ∨ (p.1 = q.1 ∧ p.2 < q.2)

instance : DecidableRel lexLe := fun p q => by unfold lexLe; infer_instance

instance : DecidableRel lexLt := fun p q => by unfold lexLt; infer_instance

def chatKey (m : ChatRow) : Nat × Nat := (m.timestamp, m.id)

def drawKey (e : DrawRow) : Nat × Nat := (e.timestamp, e.id)

def snapKey (s : SnapRow) : Nat × Nat := (s.timestamp, s.id)

/-- Ascending `(timestamp, id)` order on chat rows. -/
def chatLe (a b : ChatRow) : Prop := lexLe (chatKey a) (chatKey b)

/-- Descending `(timestamp, id)` order on chat rows (`ORDER BY timestamp DESC`). -/
def chatGe (a b : ChatRow) : Prop := lexLe (chatKey b) (chatKey a)

/-- Ascending `(timestamp, id)` order on drawing rows (`ORDER BY timestamp ASC`). -/
def drawLe (a b : DrawRow) : Prop := lexLe (drawKey a) (drawKey b)

/-- Descending `(timestamp, id)` order on snapshot rows. -/
def snapGe (a b : SnapRow) : Prop := lexLe (snapKey b) (snapKey a)

instance : DecidableRel chatLe := fun a b => by unfold chatLe; infer_instance
instance : DecidableRel chatGe := fun a b => by unfold chatGe; infer_instance
instance : DecidableRel drawLe := fun a b => by unfold drawLe; infer_instance
instance : DecidableRel snapGe := fun a b => by unfold snapGe; infer_instance

instance : IsTotal ChatRow chatLe := ⟨by intro a b; unfold chatLe lexLe; omega⟩
instance : IsTrans ChatRow chatLe := ⟨by intro a b c; unfold chatLe lexLe; omega⟩
instance : IsTotal ChatRow chatGe := ⟨by intro a b; unfold chatGe lexLe; omega⟩
instance : IsTrans ChatRow chatGe := ⟨by intro a b c; unfold chatGe lexLe; omega⟩
instance : IsTotal DrawRow drawLe := ⟨by intro a b; unfold drawLe lexLe; omega⟩
instance : IsTrans DrawRow drawLe := ⟨by intro a b c; unfold drawLe lexLe; omega⟩
instance : IsTotal SnapRow snapGe := ⟨by intro a b; unfold snapGe lexLe; omega⟩
instance : IsTrans SnapRow snapGe := ⟨by intro a b c; unfold snapGe lexLe; omega⟩

/-! ### Database operations (db module) -/

/-- `createRoom` — `INSERT OR REPLACE INTO rooms ... VALUES (?, ?, ?, 4, ?)`. -/
def dbCreateRoom (db : DB) (id name : String) (isCustom : Bool) (now : Nat) : DB :=
  { db with rooms := db.rooms.filter (fun r => r.id != id) ++
      [⟨id, name, now, 4, if isCustom then 1 else 0⟩] }

/-- `getRoom` — `SELECT * FROM rooms WHERE id = ?` (first row or null). -/
def dbGetRoom (db : DB) (roomId : String) : Option RoomRow :=
  db.rooms.find? (fun r => r.id == roomId)

/-- `deleteRoom` — deletes the room's chat messages, drawing events,
snapshots, and the room row itself. -/
def dbDeleteRoom (db : DB) (roomId : String) : DB :=
  { db with
    chat_messages := db.chat_messages.filter (fun m => m.room_id != roomId),
    drawing_events := db.drawing_events.filter (fun e => e.room_id != roomId),
    canvas_snapshots := db.canvas_snapshots.filter (fun s => s.room_id != roomId),
    rooms := db.rooms.filter (fun r => r.id != roomId) }

/-- `addChatMessage` — `INSERT INTO chat_messages ...` with an
`AUTOINCREMENT` id. -/
def dbAddChatMessage (db : DB) (roomId pid pname text : String) (ts : Nat) : DB :=
  { db with
    chat_messages := db.chat_messages ++ [⟨db.nextChatId, roomId, pid, pname, text, ts⟩],
    nextChatId := db.nextChatId + 1 }

/-- The row shape `getChatHistory` maps each chat row to. -/
structure ChatOut where
  playerId : String
  playerName : String
  text : String
  timestamp : Nat
deriving DecidableEq

def chatProj (m : ChatRow) : ChatOut :=
  ⟨m.player_id, m.player_name, m.message, m.timestamp⟩

/-- `getChatHistory` — `WHERE room_id = ? ORDER BY timestamp DESC LIMIT ?`,
then `results.reverse().map(...)`. -/
def dbGetChatHistory (db : DB) (roomId : String) (limit : Nat) : List ChatOut :=
  (((db.chat_messages.filter (fun m => m.room_id == roomId)).insertionSort
      chatGe).take limit).reverse.map chatProj

/-- `clearChatHistory` — `DELETE FROM chat_messages WHERE room_id = ?`. -/
def dbClearChatHistory (db : DB) (roomId : String) : DB :=
  { db with chat_messages := db.chat_messages.filter (fun m => m.room_id != roomId) }

/-- `addDrawingEvent` — `INSERT INTO drawing_events ...`. -/
def dbAddDrawingEvent (db : DB) (roomId pid etype : String) (data : EventData)
    (ts : Nat) : DB :=
  { db with
    drawing_events := db.drawing_events ++ [⟨db.nextDrawId, roomId, pid, etype, data, ts⟩],
    nextDrawId := db.nextDrawId + 1 }

/-- The row shape `getDrawingEvents` maps each drawing row to
(`{playerId, type, ...JSON.parse(event_data), timestamp}`). -/
structure DrawOut where
  playerId : String
  etype : String
  points : List Point
  color : String
  size : Nat
  tool : String
  timestamp : Nat
deriving DecidableEq

def drawProj (e : DrawRow) : DrawOut :=
  ⟨e.player_id, e.event_type, e.event_data.points, e.event_data.color,
    e.event_data.size, e.event_data.tool, e.timestamp⟩

/-- `getDrawingEvents` — `WHERE room_id = ? AND timestamp > ? ORDER BY
timestamp ASC`. -/
def dbGetDrawingEvents (db : DB) (roomId : String) (since : Nat) : List DrawOut :=
  ((db.drawing_events.filter
      (fun e => e.room_id == roomId && decide (since < e.timestamp))).insertionSort
    drawLe).map drawProj

/-- `clearDrawingEvents` — `DELETE FROM drawing_events WHERE room_id = ?`. -/
def dbClearDrawingEvents (db : DB) (roomId : String) : DB :=
  { db with drawing_events := db.drawing_events.filter (fun e => e.room_id != roomId) }

/-- `saveCanvasSnapshot` — `DELETE FROM canvas_snapshots WHERE room_id = ?`
followed by a single `INSERT`. -/
def dbSaveCanvasSnapshot (db : DB) (roomId data : String) (ts : Nat) : DB :=
  { db with
    canvas_snapshots := db.canvas_snapshots.filter (fun s => s.room_id != roomId) ++
      [⟨db.nextSnapId, roomId, data, ts⟩],
    nextSnapId := db.nextSnapId + 1 }

/-- The object `getCanvasSnapshot` returns. -/
structure SnapOut where
  snapshotData : String
  timestamp : Nat
deriving DecidableEq

/-- `getCanvasSnapshot` — `WHERE room_id = ? ORDER BY timestamp DESC LIMIT 1`. -/
def dbGetCanvasSnapshot (db : DB) (roomId : String) : Option SnapOut :=
  ((db.canvas_snapshots.filter (fun s => s.room_id == roomId)).insertionSort
      snapGe).head?.map (fun s => ⟨s.snapshot_data, s.timestamp⟩)

/-- `clearCanvasSnapshot` — `DELETE FROM canvas_snapshots WHERE room_id = ?`. -/
def dbClearCanvasSnapshot (db : DB) (roomId : String) : DB :=
  { db with canvas_snapshots := db.canvas_snapshots.filter (fun s => s.room_id != roomId) }

/-- `cleanupOldData` with the cutoff (`Date.now() - maxAgeMs`) made explicit:
deletes chat messages older than the cutoff, and drawing events older than
the cutoff whose room has a snapshot with `timestamp > cutoff`. -/
def dbCleanupOldData (db : DB) (cutoff : Nat) : DB :=
  { db with
    chat_messages := db.chat_messages.filter (fun m => !decide (m.timestamp < cutoff)),
    drawing_events := db.drawing_events.filter (fun e =>
      !(decide (e.timestamp < cutoff) &&
        db.canvas_snapshots.any (fun s => s.room_id == e.room_id && decide (cutoff < s.timestamp)))) }

/-! ### RoomManager (`src/backend/roomManager.js`) -/

structure Player where
  playerId : String
  playerName : String
  isDrawing : Bool
deriving DecidableEq

/-- The per-room in-memory state `{ players, drawingEventsCache, lastActivity }`. -/
structure ActiveRoom where
  players : List (String × Player)
  drawingEventsCache : List DrawOut
  lastActivity : Nat
deriving DecidableEq

/-- Room manager state: the database plus the `activeRooms` map. -/
structure RMState where
  db : DB
  activeRooms : List (String × ActiveRoom)
deriving DecidableEq

/-- JS `Map.get` on an insertion-ordered association list. -/
def alookup {β : Type} (l : List (String × β)) (k : String) : Option β :=
  (l.find? (fun kv => kv.1 == k)).map (fun kv => kv.2)

/-- JS `Map.set`: replaces in place if the key exists, else appends. -/
def aset {β : Type} (l : List (String × β)) (k : String) (v : β) :
    List (String × β) :=
  if (l.find? (fun kv => kv.1 == k)).isSome then
    l.map (fun kv => if kv.1 == k then (k, v) else kv)
  else l ++ [(k, v)]

/-- JS `Map.delete` (ignoring the returned flag). -/
def aerase {β : Type} (l : List (String × β)) (k : String) : List (String × β) :=
  l.filter (fun kv => kv.1 != k)

def MAX_PLAYERS_PER_ROOM : Nat := 4

def MAX_CHAT_HISTORY : Nat := 50

def MAX_DRAWING_EVENTS_MEMORY : Nat := 500

/-- `room.max_players || this.MAX_PLAYERS_PER_ROOM` (`0` is falsy). -/
def effMax (room : RoomRow) : Nat :=
  if room.max_players = 0 then MAX_PLAYERS_PER_ROOM else room.max_players

/-- `getActiveRoom`: get-or-create the in-memory room entry. -/
def mgrGetActiveRoom (st : RMState) (roomId : String) (now : Nat) :
    ActiveRoom × RMState :=
  match alookup st.activeRooms roomId with
  | some ar => (ar, st)
  | none =>
    let ar : ActiveRoom := ⟨[], [], now⟩
    (ar, { st with activeRooms := aset st.activeRooms roomId ar })

/-- `getActivePlayerCount`. -/
def mgrActivePlayerCount (st : RMState) (roomId : String) : Nat :=
  match alookup st.activeRooms roomId with
  | some ar => ar.players.length
  | none => 0

/-- The players currently registered in a room (`players.values()`). -/
def playersOf (st : RMState) (roomId : String) : List Player :=
  match alookup st.activeRooms roomId with
  | some ar => ar.players.map (fun kv => kv.2)
  | none => []

/-- `RoomManager.addPlayer`. -/
def mgrAddPlayer (st : RMState) (roomId : String) (p : Player) (now : Nat) :
    Bool × RMState :=
  match dbGetRoom st.db roomId with
  | none => (false, st)
  | some room =>
    let (ar, st1) := mgrGetActiveRoom st roomId now
    if effMax room ≤ ar.players.length then (false, st1)
    else
      let ar' : ActiveRoom :=
        { ar with players := aset ar.players p.playerId p, lastActivity := now }
      (true, { st1 with activeRooms := aset st1.activeRooms roomId ar' })

/-- `RoomManager.removePlayer`: deletes the key and, when the deletion emptied
a custom room, refreshes `lastActivity` (only that field differs between the
code's nested branches, so the update is embedded as a value). -/
def mgrRemovePlayer (st : RMState) (roomId playerId : String) (now : Nat) :
    Bool × RMState :=
  match alookup st.activeRooms roomId with
  | none => (false, st)
  | some ar =>
    if (alookup ar.players playerId).isSome then
      let players' := aerase ar.players playerId
      let isCustomRoom :=
        match dbGetRoom st.db roomId with
        | some room => room.is_custom == 1
        | none => false
      let last' :=
        if players'.length == 0 && isCustomRoom then now else ar.lastActivity
      let rooms' := aset st.activeRooms roomId ⟨players', ar.drawingEventsCache, last'⟩
      (true, { st with activeRooms := rooms' })
    else (false, st)

/-- `RoomManager.getPlayersInRoom`. -/
def mgrGetPlayersInRoom (st : RMState) (roomId : String) : List Player :=
  playersOf st roomId

/-- The client-safe player projection used in `getRoomState`. -/
structure PlayerView where
  playerId : String
  playerName : String
  isDrawing : Bool
deriving DecidableEq

/-- The state payload `getRoomState` builds. -/
structure RoomStateView where
  roomId : String
  roomName : String
  activePlayers : List PlayerView
  chatHistory : List ChatOut
  drawingEvents : List DrawOut
  canvasSnapshot : Option String
deriving DecidableEq

/-- `RoomManager.getRoomState`. -/
def mgrGetRoomState (st : RMState) (roomId : String) (now : Nat) :
    Option RoomStateView × RMState :=
  match dbGetRoom st.db roomId with
  | none => (none, st)
  | some room =>
    let (ar, st1) := mgrGetActiveRoom st roomId now
    let snap := dbGetCanvasSnapshot st.db roomId
    let draws :=
      match snap with
      | some s => dbGetDrawingEvents st.db roomId s.timestamp
      | none => dbGetDrawingEvents st.db roomId 0
    (some ⟨room.id, room.name,
        ar.players.map (fun kv => ⟨kv.2.playerId, kv.2.playerName, kv.2.isDrawing⟩),
        dbGetChatHistory st.db roomId MAX_CHAT_HISTORY,
        draws,
        snap.map (fun s => s.snapshotData)⟩, st1)

/-- `RoomManager.addChatMessage` (persists, then bumps `lastActivity` if the
room is active). -/
def mgrAddChatMessage (st : RMState) (roomId : String) (m : ChatOut) (now : Nat) :
    RMState :=
  let db' := dbAddChatMessage st.db roomId m.playerId m.playerName m.text m.timestamp
  match alookup st.activeRooms roomId with
  | some ar =>
    ⟨db', aset st.activeRooms roomId { ar with lastActivity := now }⟩
  | none => { st with db := db' }

/-- `RoomManager.addDrawingEvent` (persists with `event.type || 'draw'`, then
appends to the bounded in-memory cache). -/
def mgrAddDrawingEvent (st : RMState) (roomId : String) (e : DrawOut) (now : Nat) :
    RMState :=
  let db' := dbAddDrawingEvent st.db roomId e.playerId
    (if e.etype = "" then "draw" else e.etype) ⟨e.points, e.color, e.size, e.tool⟩
    e.timestamp
  let (ar, st1) := mgrGetActiveRoom { st with db := db' } roomId now
  let cache1 := ar.drawingEventsCache ++ [e]
  let cache2 :=
    if MAX_DRAWING_EVENTS_MEMORY < cache1.length then
      cache1.drop (cache1.length - MAX_DRAWING_EVENTS_MEMORY)
    else cache1
  let ar' : ActiveRoom := { ar with drawingEventsCache := cache2, lastActivity := now }
  { st1 with activeRooms := aset st1.activeRooms roomId ar' }

/-- `RoomManager.clearCanvas`. -/
def mgrClearCanvas (st : RMState) (roomId : String) (now : Nat) : RMState :=
  let db' := dbClearCanvasSnapshot (dbClearDrawingEvents st.db roomId) roomId
  match alookup st.activeRooms roomId with
  | some ar =>
    ⟨db', aset st.activeRooms roomId { ar with drawingEventsCache := [], lastActivity := now }⟩
  | none => { st with db := db' }

/-- `RoomManager.saveCanvasSnapshot` (persists with `Date.now()` and clears the
in-memory cache). -/
def mgrSaveCanvasSnapshot (st : RMState) (roomId data : String) (now : Nat) : RMState :=
  let db' := dbSaveCanvasSnapshot st.db roomId data now
  match alookup st.activeRooms roomId with
  | some ar => ⟨db', aset st.activeRooms roomId { ar with drawingEventsCache := [] }⟩
  | none => { st with db := db' }

/-- `RoomManager.setPlayerDrawing`. -/
def mgrSetPlayerDrawing (st : RMState) (roomId playerId : String) (isDrawing : Bool) :
    RMState :=
  match alookup st.activeRooms roomId with
  | none => st
  | some ar =>
    match alookup ar.players playerId with
    | none => st
    | some p =>
      let ar' : ActiveRoom :=
        { ar with players := aset ar.players playerId ({ p with isDrawing := isDrawing }) }
      { st with activeRooms := aset st.activeRooms roomId ar' }

/-- `RoomManager.deleteRoom` (refuses non-custom rooms, then deletes the
persisted data and detaches the in-memory entry). -/
def mgrDeleteRoom (st : RMState) (roomId : String) : Bool × RMState :=
  match dbGetRoom st.db roomId with
  | none => (false, st)
  | some room =>
    if room.is_custom ≠ 1 then (false, st)
    else (true, ⟨dbDeleteRoom st.db roomId, aerase st.activeRooms roomId⟩)

/-- The client-facing room info of `getRoomInfo`. -/
structure RoomInfo where
  id : String
  name : String
  playerCount : Nat
  maxPlayers : Nat
  isCustom : Bool
deriving DecidableEq

/-- `RoomManager.getRoomInfo`. -/
def mgrGetRoomInfo (st : RMState) (roomId : String) : Option RoomInfo :=
  (dbGetRoom st.db roomId).map (fun room =>
    ⟨room.id, room.name, mgrActivePlayerCount st roomId, effMax room,
      room.is_custom == 1⟩)

/-! ### WebSocket connection handlers (`src/backend/server.js`) -/

/-- The connection-local mutable variables of a WebSocket connection
(`playerId`, `playerName`, `currentRoomId`; `none` embeds `null`). -/
structure ConnState where
  playerId : Option String
  playerName : Option String
  currentRoomId : Option String
deriving DecidableEq

def initConn : ConnState := ⟨none, none, none⟩

/-- Payloads handed to `broadcastToRoom`. -/
inductive BMsg where
  | userJoined (playerId playerName : String) (isRejoin : Bool) (timestamp : Nat)
  | userLeft (playerId playerName : String) (timestamp : Nat)
  | drawOut (e : DrawOut)
  | chatOut (m : ChatOut)
  | clearOut (playerId playerName : String) (timestamp : Nat)
  | indicator (isStart : Bool) (playerId playerName : String)
deriving DecidableEq

/-- One `broadcastToRoom(roomId, message, excludePlayerId)` call record;
recipients are resolved from the registry at call time. -/
structure Broadcast where
  roomId : String
  payload : BMsg
  excludePlayerId : Option String
deriving DecidableEq

/-- Messages sent back on the handling connection itself. -/
inductive ServerReply where
  | errorMsg (text : String)
  | roomStateMsg (view : RoomStateView) (playerId playerName : String)
  | rejoinStateMsg (view : RoomStateView) (missedEvents : List DrawOut)
      (playerId playerName : String)
deriving DecidableEq

/-- Result of a join/rejoin handler: updated connection variables, updated
room-manager state, replies to this socket, and fan-out calls. -/
structure HandlerOut where
  conn : ConnState
  st : RMState
  replies : List ServerReply
  broadcasts : List Broadcast
deriving DecidableEq

structure JoinMsg where
  roomId : String
  playerId : String
  playerName : String
deriving DecidableEq

/-- `handleJoin` — `""` embeds a falsy (absent) field, `freshId` the
`uuidv4()` result. -/
def handleJoin (st : RMState) (m : JoinMsg) (freshId : String) (now : Nat) :
    HandlerOut :=
  let pid := if m.playerId = "" then freshId else m.playerId
  let pname := if m.playerName = "" then "Player " ++ pid.take 4 else m.playerName
  let conn' : ConnState := ⟨some pid, some pname, some m.roomId⟩
  if (dbGetRoom st.db m.roomId).isNone then
    ⟨conn', st, [.errorMsg "Room does not exist"], []⟩
  else
    let (added, st1) := mgrAddPlayer st m.roomId ⟨pid, pname, false⟩ now
    if added then
      match mgrGetRoomState st1 m.roomId now with
      | (some view, st2) =>
        ⟨conn', st2, [.roomStateMsg view pid pname],
          [⟨m.roomId, .userJoined pid pname false now, some pid⟩]⟩
      | (none, st2) => ⟨conn', st2, [], []⟩
    else ⟨conn', st1, [.errorMsg "Room is full"], []⟩

structure RejoinMsg where
  roomId : String
  playerId : String
  playerName : String
  lastEventTimestamp : Nat
deriving DecidableEq

/-- `handleRejoin` — `lastEventTimestamp = 0` embeds a falsy watermark. -/
def handleRejoin (st : RMState) (m : RejoinMsg) (now : Nat) : HandlerOut :=
  let conn' : ConnState := ⟨some m.playerId, some m.playerName, some m.roomId⟩
  if (dbGetRoom st.db m.roomId).isNone then
    ⟨conn', st, [.errorMsg "Room no longer exists"], []⟩
  else
    let (added, st1) := mgrAddPlayer st m.roomId ⟨m.playerId, m.playerName, false⟩ now
    if added then
      match mgrGetRoomState st1 m.roomId now with
      | (some view, st2) =>
        let missed :=
          if m.lastEventTimestamp ≠ 0 then
            view.drawingEvents.filter (fun e => decide (m.lastEventTimestamp < e.timestamp))
          else []
        ⟨conn', st2, [.rejoinStateMsg view missed m.playerId m.playerName],
          [⟨m.roomId, .userJoined m.playerId m.playerName true now, some m.playerId⟩]⟩
      | (none, st2) => ⟨conn', st2, [], []⟩
    else ⟨conn', st1, [.errorMsg "Room is full"], []⟩

/-- The JS truthiness guard `if (!currentRoomId || !playerId) return`. -/
def connReady (conn : ConnState) : Option (String × String) :=
  match conn.currentRoomId, conn.playerId with
  | some rid, some pid => if rid = "" ∨ pid = "" then none else some (rid, pid)
  | _, _ => none

structure DrawMsg where
  points : List Point
  color : String
  size : Nat
  tool : String
deriving DecidableEq

/-- `handleDraw`. -/
def handleDraw (conn : ConnState) (st : RMState) (m : DrawMsg) (now : Nat) :
    RMState × List Broadcast :=
  match connReady conn with
  | none => (st, [])
  | some (rid, pid) =>
    let e : DrawOut := ⟨pid, "draw", m.points, m.color, m.size,
      (if m.tool = "" then "pen" else m.tool), now⟩
    (mgrAddDrawingEvent st rid e now, [⟨rid, .drawOut e, some pid⟩])

/-- The subset of ECMAScript whitespace relevant here (`String.prototype.trim`). -/
def jsWhitespace (c : Char) : Bool :=
  c == ' ' || c == '\t' || c == '\n' || c == '\r' || c.val == 11 || c.val == 12

/-- `text.trim()`. -/
def jsTrim (s : String) : String :=
  String.mk (((s.data.dropWhile jsWhitespace).reverse.dropWhile jsWhitespace).reverse)

/-- `text.length` — JS string length counts UTF-16 code units. -/
def utf16Len (s : String) : Nat :=
  (s.data.map (fun c => if c.val < 65536 then 1 else 2)).sum

/-- `handleChatMessage` — note the guards: `!text || text.trim().length === 0`
rejects blank input, `text.length > 140` checks the *untrimmed* length; both
silently `return` without replying. -/
def handleChatMessage (conn : ConnState) (st : RMState) (text : String)
    (now : Nat) : RMState × List Broadcast :=
  match connReady conn with
  | none => (st, [])
  | some (rid, pid) =>
    if text = "" ∨ utf16Len (jsTrim text) = 0 then (st, [])
    else if 140 < utf16Len text then (st, [])
    else
      let cm : ChatOut := ⟨pid, conn.playerName.getD "", jsTrim text, now⟩
      (mgrAddChatMessage st rid cm now, [⟨rid, .chatOut cm, none⟩])

/-- A buffered client event submitted through `queueReplay`; optional fields
default to their JS-falsy embedding. -/
structure QueuedEvent where
  qtype : String
  points : List Point := []
  color : String := ""
  size : Nat := 0
  tool : String := ""
  text : String := ""
  timestamp : Option Nat := none
deriving DecidableEq

/-- `event.timestamp || Date.now()` — an absent *or zero* timestamp is
replaced by the receipt time. -/
def jsTsOr (ts : Option Nat) (now : Nat) : Nat :=
  match ts with
  | some t => if t = 0 then now else t
  | none => now

/-- The body of the `events.forEach` in `handleQueueReplay`, for one event. -/
def applyQueued (rid pid pname : String) (now : Nat) (st : RMState)
    (e : QueuedEvent) : RMState × List Broadcast :=
  if e.qtype = "draw" then
    let de : DrawOut := ⟨pid, "draw", e.points, e.color, e.size,
      (if e.tool = "" then "pen" else e.tool), jsTsOr e.timestamp now⟩
    (mgrAddDrawingEvent st rid de now, [⟨rid, .drawOut de, some pid⟩])
  else if e.qtype = "message" then
    let cm : ChatOut := ⟨pid, pname, e.text, jsTsOr e.timestamp now⟩
    (mgrAddChatMessage st rid cm now, [⟨rid, .chatOut cm, none⟩])
  else (st, [])

def processQueue (rid pid pname : String) (now : Nat) :
    RMState → List QueuedEvent → RMState × List Broadcast
  | st, [] => (st, [])
  | st, e :: rest =>
    let (st1, bs1) := applyQueued rid pid pname now st e
    let (st2, bs2) := processQueue rid pid pname now st1 rest
    (st2, bs1 ++ bs2)

/-- `handleQueueReplay`. -/
def handleQueueReplay (conn : ConnState) (st : RMState)
    (events : List QueuedEvent) (now : Nat) : RMState × List Broadcast :=
  match connReady conn with
  | none => (st, [])
  | some (rid, pid) => processQueue rid pid (conn.playerName.getD "") now st events

/-! ### REST route `DELETE /api/rooms/:roomId` (`src/backend/server.js`) -/

/-- HTTP outcomes of the delete-room route: `404`, `403` (the spec's
`PermissionError`), `400` (the spec's `ConflictError`), `200`. -/
inductive DeleteRes where
  | notFound
  | permissionDenied
  | conflict
  | okDeleted
deriving DecidableEq

/-- The `DELETE /api/rooms/:roomId` route handler. -/
def deleteRoomEndpoint (st : RMState) (roomId : String) : DeleteRes × RMState :=
  match mgrGetRoomInfo st roomId with
  | none => (.notFound, st)
  | some info =>
    if !info.isCustom then (.permissionDenied, st)
    else if 0 < info.playerCount then (.conflict, st)
    else
      let (_, st') := mgrDeleteRoom st roomId
      (.okDeleted, st')

/-! ### Operation traces for the invariant claims -/

/-- A registry operation, as in claim C1's trace quantification. -/
inductive ConnOp where
  | add (roomId : String) (p : Player) (now : Nat)
  | remove (roomId playerId : String) (now : Nat)

def applyConnOp (st : RMState) : ConnOp → RMState
  | .add roomId p now => (mgrAddPlayer st roomId p now).2
  | .remove roomId pid now => (mgrRemovePlayer st roomId pid now).2

def applyConnOps (st : RMState) : List ConnOp → RMState
  | [] => st
  | op :: ops => applyConnOps (applyConnOp st op) ops

/-- Capacity invariant: no room's active player set exceeds its capacity. -/
def capacityInv (st : RMState) : Prop :=
  ∀ roomId room, dbGetRoom st.db roomId = some room →
    (playersOf st roomId).length ≤ effMax room

/-- A database mutation, covering every write operation the db module
exports. -/
inductive DbOp where
  | createRoomOp (id name : String) (isCustom : Bool) (now : Nat)
  | deleteRoomOp (roomId : String)
  | addChatMessageOp (roomId pid pname text : String) (ts : Nat)
  | clearChatHistoryOp (roomId : String)
  | addDrawingEventOp (roomId pid etype : String) (data : EventData) (ts : Nat)
  | clearDrawingEventsOp (roomId : String)
  | saveCanvasSnapshotOp (roomId data : String) (ts : Nat)
  | clearCanvasSnapshotOp (roomId : String)
  | cleanupOldDataOp (cutoff : Nat)

def applyDbOp (db : DB) : DbOp → DB
  | .createRoomOp id name isCustom now => dbCreateRoom db id name isCustom now
  | .deleteRoomOp roomId => dbDeleteRoom db roomId
  | .addChatMessageOp roomId pid pname text ts => dbAddChatMessage db roomId pid pname text ts
  | .clearChatHistoryOp roomId => dbClearChatHistory db roomId
  | .addDrawingEventOp roomId pid etype data ts => dbAddDrawingEvent db roomId pid etype data ts
  | .clearDrawingEventsOp roomId => dbClearDrawingEvents db roomId
  | .saveCanvasSnapshotOp roomId data ts => dbSaveCanvasSnapshot db roomId data ts
  | .clearCanvasSnapshotOp roomId => dbClearCanvasSnapshot db roomId
  | .cleanupOldDataOp cutoff => dbCleanupOldData db cutoff

def applyDbOps (db : DB) : List DbOp → DB
  | [] => db
  | op :: ops => applyDbOps (applyDbOp db op) ops

/-- Single-snapshot invariant: at most one snapshot row per room. -/
def snapInv (db : DB) : Prop :=
  ∀ roomId : String,
    (db.canvas_snapshots.filter (fun s => s.room_id == roomId)).length ≤ 1

/-! ### Canvas replay (for the snapshot round-trip law) -/

/-- Replaying a sequence of drawing events over an arbitrary canvas
interpretation `stepFn`. -/
def replayEvents {C : Type} (stepFn : C → DrawOut → C) (c : C)
    (evs : List DrawOut) : C :=
  evs.foldl stepFn c

/-- The full persisted drawing-event history of a room since creation, in
ascending `(timestamp, id)` order (the log with no `since` cutoff). -/
def fullDrawingHistory (db : DB) (roomId : String) : List DrawOut :=
  ((db.drawing_events.filter (fun e => e.room_id == roomId)).insertionSort
    drawLe).map drawProj

/-- The timestamp of the room's snapshot, or `0` when there is none (the
`since` watermark `getRoomState` feeds to `getDrawingEvents`). -/
def snapshotBaseTs (db : DB) (roomId : String) : Nat :=
  match dbGetCanvasSnapshot db roomId with
  | some s => s.timestamp
  | none => 0

/-- Extracts `missedEvents` from a rejoin handler's replies. -/
def missedOfReplies : List ServerReply → List DrawOut
  | [ServerReply.rejoinStateMsg _ missed _ _] => missed
  | _ => []

/-! ### Spec-side characterization of queue replay (claim C6)

These three functions are written from the spec's description of
`applyReplayedEvents` (accept only `draw`/`message`, re-stamp attribution,
timestamp from the event via `event.timestamp || Date.now()`, append and
broadcast, no deduplication); the refinement theorem compares
`handleQueueReplay` against them. -/

def replayDrawRows (rid pid : String) (now : Nat) :
    Nat → List QueuedEvent → List DrawRow
  | _, [] => []
  | nid, e :: rest =>
    if e.qtype = "draw" then
      ⟨nid, rid, pid, "draw",
        ⟨e.points, e.color, e.size, (if e.tool = "" then "pen" else e.tool)⟩,
        jsTsOr e.timestamp now⟩ :: replayDrawRows rid pid now (nid + 1) rest
    else replayDrawRows rid pid now nid rest

def replayChatRows (rid pid pname : String) (now : Nat) :
    Nat → List QueuedEvent → List ChatRow
  | _, [] => []
  | nid, e :: rest =>
    if e.qtype = "draw" then replayChatRows rid pid pname now nid rest
    else if e.qtype = "message" then
      ⟨nid, rid, pid, pname, e.text, jsTsOr e.timestamp now⟩ ::
        replayChatRows rid pid pname now (nid + 1) rest
    else replayChatRows rid pid pname now nid rest

def replayBroadcasts (rid pid pname : String) (now : Nat) :
    List QueuedEvent → List Broadcast
  | [] => []
  | e :: rest =>
    if e.qtype = "draw" then
      ⟨rid, .drawOut ⟨pid, "draw", e.points, e.color, e.size,
          (if e.tool = "" then "pen" else e.tool), jsTsOr e.timestamp now⟩,
        some pid⟩ :: replayBroadcasts rid pid pname now rest
    else if e.qtype = "message" then
      ⟨rid, .chatOut ⟨pid, pname, e.text, jsTsOr e.timestamp now⟩, none⟩ ::
        replayBroadcasts rid pid pname now rest
    else replayBroadcasts rid pid pname now rest

/-! ### Concrete fixtures for witnesses and counterexamples -/

def roomW : RoomRow := ⟨"r", "Room R", 0, 4, 0⟩

def customRoomW : RoomRow := ⟨"c", "Custom", 0, 4, 1⟩

def dbW : DB := { emptyDB with rooms := [roomW, customRoomW] }

def stEmptyW : RMState := ⟨dbW, []⟩

def fullARW : ActiveRoom :=
  ⟨[("a", ⟨"a", "A", false⟩), ("b", ⟨"b", "B", false⟩),
    ("c", ⟨"c", "C", false⟩), ("d", ⟨"d", "D", false⟩)], [], 0⟩

def stFullW : RMState := ⟨dbW, [("r", fullARW)]⟩

def dataW : EventData := ⟨[⟨1, 1⟩], "#000000", 3, "pen"⟩

def dbC2 : DB :=
  { emptyDB with
    rooms := [roomW],
    drawing_events := [⟨1, "r", "p", "draw", dataW, 5⟩, ⟨2, "r", "p", "draw", dataW, 15⟩],
    canvas_snapshots := [⟨1, "r", "snapdata", 10⟩],
    nextDrawId := 3, nextSnapId := 2 }

def stC2 : RMState := ⟨dbC2, []⟩

def msgC2 : RejoinMsg := ⟨"r", "b", "Bob", 3⟩

def dbC4 : DB :=
  { emptyDB with
    rooms := [roomW],
    drawing_events := [⟨1, "r", "p", "draw", dataW, 1⟩],
    canvas_snapshots := [⟨1, "r", "snapdata", 100⟩],
    nextDrawId := 2, nextSnapId := 2 }

def textC5 : String := String.mk (List.replicate 140 'a' ++ [' '])

def connC5 : ConnState := ⟨some "p", some "Pat", some "r"⟩

def stC5 : RMState := ⟨dbW, []⟩

def evC6 : QueuedEvent :=
  { qtype := "draw", points := [⟨0, 0⟩], color := "#000000", size := 3,
    tool := "pen", timestamp := some 0 }

def stC7 : RMState := ⟨dbW, [("c", ⟨[("a", ⟨"a", "A", false⟩)], [], 0⟩)]⟩

def dbC9 : DB :=
  { emptyDB with
    rooms := [roomW],
    chat_messages :=
      [⟨1, "r", "p", "P", "one", 100⟩, ⟨2, "r", "q", "Q", "two", 50⟩,
        ⟨3, "r", "p", "P", "three", 100⟩],
    nextChatId := 4 }

/-! ### Helper lemmas: insertion sort -/

theorem orderedInsert_eq_cons {α : Type} (r : α → α → Prop) [DecidableRel r]
    (a : α) (l : List α) (h : ∀ x ∈ l, r a x) :
    l.orderedInsert r a = a :: l := by
  cases l with
  | nil => rfl
  | cons b t => simp [List.orderedInsert, h b (List.mem_cons_self b t)]

theorem filter_orderedInsert_sorted {α : Type} (r : α → α → Prop) [DecidableRel r]
    [IsTotal α r] [IsTrans α r] (p : α → Bool) (a : α) (l : List α)
    (hl : l.Sorted r) :
    (l.orderedInsert r a).filter p =
      if p a then (l.filter p).orderedInsert r a else l.filter p := by
  induction l with
  | nil =>
    by_cases hpa : p a <;> simp [List.orderedInsert, List.filter, hpa]
  | cons b t ih =>
    have hbt : ∀ x ∈ t, r b x := fun x hx => List.rel_of_pairwise_cons hl hx
    have hts : t.Sorted r := hl.of_cons
    by_cases hab : r a b
    · rw [List.orderedInsert_of_le r t hab]
      by_cases hpa : p a
      · have hall : ∀ x ∈ (b :: t).filter p, r a x := by
          intro x hx
          have hx' := List.mem_of_mem_filter hx
          rcases List.mem_cons.mp hx' with hxb | hxt
          · exact hxb ▸ hab
          · exact Trans.trans hab (hbt x hxt)
        rw [orderedInsert_eq_cons r a _ hall] at *
        simp [hpa, List.filter_cons]
      · simp [hpa, List.filter_cons]
    · have heq : (b :: t).orderedInsert r a = b :: t.orderedInsert r a := by
        simp [List.orderedInsert, hab]
      rw [heq, List.filter_cons, ih hts, List.filter_cons]
      by_cases hpa : p a <;> by_cases hpb : p b <;>
        simp [hpa, hpb, List.orderedInsert, hab]

theorem filter_insertionSort {α : Type} (r : α → α → Prop) [DecidableRel r]
    [IsTotal α r] [IsTrans α r] (p : α → Bool) (l : List α) :
    (l.insertionSort r).filter p = (l.filter p).insertionSort r := by
  induction l with
  | nil => rfl
  | cons a t ih =>
    rw [List.insertionSort,
      filter_orderedInsert_sorted r p a _ (List.sorted_insertionSort r t), ih,
      List.filter_cons]
    by_cases hpa : p a <;> simp [hpa, List.insertionSort]

theorem filter_le_append_filter_gt {α : Type} (f : α → Nat) (T : Nat)
    (l : List α) (h : l.Pairwise (fun a b => f a ≤ f b)) :
    l.filter (fun e => decide (f e ≤ T)) ++ l.filter (fun e => decide (T < f e)) = l := by
  induction l with
  | nil => rfl
  | cons a t ih =>
    have ha : ∀ x ∈ t, f a ≤ f x := fun x hx => List.rel_of_pairwise_cons h hx
    have ht := h.of_cons
    by_cases hle : f a ≤ T
    · have h1 : decide (f a ≤ T) = true := decide_eq_true hle
      have h2 : decide (T < f a) = false := by simp; omega
      simp only [List.filter_cons, h1, h2, if_true, if_false, List.cons_append,
        Bool.false_eq_true]
      rw [ih ht]
    · have h1 : decide (f a ≤ T) = false := by simp; omega
      have h2 : decide (T < f a) = true := by simp; omega
      have hnilLe : t.filter (fun e => decide (f e ≤ T)) = [] := by
        rw [List.filter_eq_nil_iff]
        intro x hx
        have := ha x hx
        simp; omega
      have hallGt : t.filter (fun e => decide (T < f e)) = t := by
        rw [List.filter_eq_self]
        intro x hx
        have := ha x hx
        simp; omega
      simp only [List.filter_cons, h1, h2, if_true, if_false, Bool.false_eq_true]
      rw [hnilLe, hallGt]
      rfl

/-! ### Helper lemmas: association lists -/

theorem length_aset_le {β : Type} (l : List (String × β)) (k : String) (v : β) :
    (aset l k v).length ≤ l.length + 1 := by
  unfold aset
  split
  · simp
  · simp

theorem alookup_aset_self {β : Type} (l : List (String × β)) (k : String) (v : β) :
    alookup (aset l k v) k = some v := by
  unfold aset
  split
  case isTrue h =>
    induction l with
    | nil => simp [List.find?] at h
    | cons kv0 t ih =>
      by_cases h0 : kv0.1 == k
      · unfold alookup
        simp only [List.map_cons, h0, if_true]
        rw [List.find?_cons_of_pos _ (by simp)]
        simp
      · unfold alookup
        simp only [List.map_cons, h0, if_false, Bool.false_eq_true]
        rw [List.find?_cons_of_neg _ (by simpa using h0)]
        have h' : (t.find? fun kv => kv.1 == k).isSome := by
          rw [List.find?_cons_of_neg _ (by simpa using h0)] at h
          exact h
        exact ih h'
  case isFalse h =>
    unfold alookup
    rw [List.find?_append]
    have hnone : (l.find? fun kv => kv.1 == k) = none :=
      Option.not_isSome_iff_eq_none.mp h
    rw [hnone]
    simp

theorem find?_map_setKey {β : Type} (k k' : String) (v : β) (h : k' ≠ k) :
    ∀ t : List (String × β),
      (t.map (fun kv => if kv.1 == k then (k, v) else kv)).find?
          (fun kv => kv.1 == k') =
        t.find? (fun kv => kv.1 == k') := by
  intro t
  induction t with
  | nil => rfl
  | cons kv0 t ih =>
    by_cases h0 : kv0.1 == k
    · have hk0 : kv0.1 = k := by simpa using h0
      simp only [List.map_cons, h0, if_true]
      rw [List.find?_cons_of_neg _ (by simp [Ne.symm h]),
        List.find?_cons_of_neg _ (by simp [hk0, Ne.symm h]), ih]
    · simp only [List.map_cons, h0, if_false, Bool.false_eq_true]
      by_cases h1 : kv0.1 == k'
      · rw [List.find?_cons_of_pos _ (by simpa using h1),
          List.find?_cons_of_pos _ (by simpa using h1)]
      · rw [List.find?_cons_of_neg _ (by simpa using h1),
          List.find?_cons_of_neg _ (by simpa using h1), ih]

theorem alookup_aset_ne {β : Type} (l : List (String × β)) (k k' : String) (v : β)
    (h : k' ≠ k) : alookup (aset l k v) k' = alookup l k' := by
  unfold aset
  split
  · unfold alookup
    rw [find?_map_setKey k k' v h l]
  · unfold alookup
    rw [List.find?_append]
    have : ([(k, v)].find? fun kv => kv.1 == k') = none := by
      simp [Ne.symm h]
    rw [this]
    simp

theorem mem_map_snd_aset {β : Type} (l : List (String × β)) (k : String) (v : β) :
    v ∈ (aset l k v).map Prod.snd := by
  unfold aset
  split
  case isTrue h =>
    obtain ⟨kv, hkv⟩ := Option.isSome_iff_exists.mp h
    have hmem := List.mem_of_find?_eq_some hkv
    have hpred : (kv.1 == k) = true := by simpa using List.find?_some hkv
    refine List.mem_map.mpr ⟨(k, v), List.mem_map.mpr ⟨kv, hmem, ?_⟩, rfl⟩
    simp [hpred]
  case isFalse h =>
    simp

/-! ### Helper lemmas: the registry -/

theorem effMax_pos (room : RoomRow) : 0 < effMax room := by
  unfold effMax MAX_PLAYERS_PER_ROOM
  split <;> omega

theorem playersOf_mk_aset_self (db : DB) (rooms : List (String × ActiveRoom))
    (roomId : String) (ar : ActiveRoom) :
    playersOf ⟨db, aset rooms roomId ar⟩ roomId = ar.players.map (fun kv => kv.2) := by
  unfold playersOf
  rw [alookup_aset_self]

theorem playersOf_mk_aset_ne (db : DB) (rooms : List (String × ActiveRoom))
    (roomId rid : String) (ar : ActiveRoom) (h : rid ≠ roomId) :
    playersOf ⟨db, aset rooms roomId ar⟩ rid = playersOf ⟨db, rooms⟩ rid := by
  unfold playersOf
  rw [alookup_aset_ne _ _ _ _ h]

theorem mgrAddPlayer_db (st : RMState) (roomId : String) (p : Player) (now : Nat) :
    ((mgrAddPlayer st roomId p now).2).db = st.db := by
  unfold mgrAddPlayer mgrGetActiveRoom
  cases hr : dbGetRoom st.db roomId with
  | none => rfl
  | some room =>
    cases ha : alookup st.activeRooms roomId with
    | some ar =>
      simp only [ha]
      split <;> rfl
    | none =>
      simp only [ha]
      split <;> rfl

theorem mgrAddPlayer_unknown (st : RMState) (roomId : String) (p : Player)
    (now : Nat) (h : dbGetRoom st.db roomId = none) :
    mgrAddPlayer st roomId p now = (false, st) := by
  unfold mgrAddPlayer
  rw [h]

theorem mgrAddPlayer_full (st : RMState) (roomId : String) (p : Player)
    (now : Nat) (room : RoomRow) (h : dbGetRoom st.db roomId = some room)
    (hfull : effMax room ≤ (playersOf st roomId).length) :
    mgrAddPlayer st roomId p now = (false, st) := by
  unfold mgrAddPlayer mgrGetActiveRoom
  rw [h]
  cases ha : alookup st.activeRooms roomId with
  | none =>
    exfalso
    unfold playersOf at hfull
    rw [ha] at hfull
    have := effMax_pos room
    simp at hfull
    omega
  | some ar =>
    simp only [ha]
    have hlen : (playersOf st roomId).length = ar.players.length := by
      unfold playersOf
      rw [ha]
      simp
    rw [hlen] at hfull
    simp only [if_pos hfull]

theorem mgrAddPlayer_success (st : RMState) (roomId : String) (p : Player)
    (now : Nat) (room : RoomRow) (h : dbGetRoom st.db roomId = some room)
    (hroom : (playersOf st roomId).length < effMax room) :
    (mgrAddPlayer st roomId p now).1 = true
    ∧ p ∈ playersOf (mgrAddPlayer st roomId p now).2 roomId := by
  unfold mgrAddPlayer mgrGetActiveRoom
  rw [h]
  cases ha : alookup st.activeRooms roomId with
  | some ar =>
    simp only [ha]
    have hlen : (playersOf st roomId).length = ar.players.length := by
      unfold playersOf
      rw [ha]
      simp
    rw [hlen] at hroom
    rw [if_neg (by omega)]
    refine ⟨rfl, ?_⟩
    have := mem_map_snd_aset ar.players p.playerId p
    simpa [playersOf_mk_aset_self] using this
  | none =>
    simp only [ha]
    rw [if_neg (by simp [effMax_pos room, Nat.not_le.mpr (effMax_pos room)])]
    refine ⟨rfl, ?_⟩
    have := mem_map_snd_aset ([] : List (String × Player)) p.playerId p
    simpa [playersOf_mk_aset_self] using this

theorem capacityInv_addPlayer (st : RMState) (roomId : String) (p : Player)
    (now : Nat) (h : capacityInv st) :
    capacityInv (mgrAddPlayer st roomId p now).2 := by
  intro rid room hrid
  rw [mgrAddPlayer_db] at hrid
  unfold mgrAddPlayer mgrGetActiveRoom
  cases hr : dbGetRoom st.db roomId with
  | none => exact h rid room hrid
  | some room0 =>
    cases ha : alookup st.activeRooms roomId with
    | some ar =>
      simp only [ha]
      by_cases hfull : effMax room0 ≤ ar.players.length
      · rw [if_pos hfull]
        exact h rid room hrid
      · rw [if_neg hfull]
        by_cases heq : rid = roomId
        · subst heq
          obtain ⟨db0, rooms0⟩ := st
          rw [playersOf_mk_aset_self]
          have hroom : room = room0 := by
            rw [hrid] at hr
            exact Option.some_injective _ hr
          subst hroom
          calc ((aset ar.players p.playerId p).map (fun kv => kv.2)).length
              = (aset ar.players p.playerId p).length := by simp
            _ ≤ ar.players.length + 1 := length_aset_le _ _ _
            _ ≤ effMax room := by omega
        · obtain ⟨db0, rooms0⟩ := st
          rw [playersOf_mk_aset_ne _ _ _ _ _ heq]
          exact h rid room hrid
    | none =>
      simp only [ha]
      rw [if_neg (by simp [Nat.not_le.mpr (effMax_pos room0)])]
      by_cases heq : rid = roomId
      · subst heq
        obtain ⟨db0, rooms0⟩ := st
        rw [playersOf_mk_aset_self]
        simp only [List.length_map]
        have h1 := length_aset_le ([] : List (String × Player)) p.playerId p
        have h2 := effMax_pos room
        simp at h1
        omega
      · obtain ⟨db0, rooms0⟩ := st
        rw [playersOf_mk_aset_ne _ _ _ _ _ heq, playersOf_mk_aset_ne _ _ _ _ _ heq]
        exact h rid room hrid

theorem mgrRemovePlayer_db (st : RMState) (roomId playerId : String) (now : Nat) :
    ((mgrRemovePlayer st roomId playerId now).2).db = st.db := by
  unfold mgrRemovePlayer
  cases ha : alookup st.activeRooms roomId with
  | none => rfl
  | some ar =>
    simp only [ha]
    split <;> rfl

theorem capacityInv_removePlayer (st : RMState) (roomId playerId : String)
    (now : Nat) (h : capacityInv st) :
    capacityInv (mgrRemovePlayer st roomId playerId now).2 := by
  intro rid room hrid
  rw [mgrRemovePlayer_db] at hrid
  unfold mgrRemovePlayer
  cases ha : alookup st.activeRooms roomId with
  | none =>
    simp only [ha]
    exact h rid room hrid
  | some ar =>
    simp only [ha]
    by_cases hin : (alookup ar.players playerId).isSome
    · rw [if_pos hin]
      by_cases heq : rid = roomId
      · subst heq
        obtain ⟨db0, rooms0⟩ := st
        rw [playersOf_mk_aset_self]
        simp only [List.length_map]
        have hbase : ar.players.length ≤ effMax room := by
          have := h rid room hrid
          unfold playersOf at this
          rw [ha] at this
          simpa using this
        have herase : (aerase ar.players playerId).length ≤ ar.players.length :=
          List.length_filter_le _ _
        omega
      · obtain ⟨db0, rooms0⟩ := st
        rw [playersOf_mk_aset_ne _ _ _ _ _ heq]
        exact h rid room hrid
    · rw [if_neg hin]
      exact h rid room hrid

theorem capacityInv_init (db : DB) : capacityInv ⟨db, []⟩ := by
  intro rid room _
  unfold playersOf alookup
  simp [List.find?]

theorem capacityInv_applyConnOps (db : DB) (ops : List ConnOp) :
    capacityInv (applyConnOps ⟨db, []⟩ ops) := by
  have hstep : ∀ (st : RMState) (op : ConnOp), capacityInv st →
      capacityInv (applyConnOp st op) := by
    intro st op hst
    cases op with
    | add roomId p now => exact capacityInv_addPlayer st roomId p now hst
    | remove roomId pid now => exact capacityInv_removePlayer st roomId pid now hst
  have hall : ∀ (ops : List ConnOp) (st : RMState), capacityInv st →
      capacityInv (applyConnOps st ops) := by
    intro ops
    induction ops with
    | nil => intro st hst; exact hst
    | cons op rest ih =>
      intro st hst
      exact ih _ (hstep st op hst)
  exact hall ops _ (capacityInv_init db)

/-! ### Claim C1 -/

/-- C1: for every room and every sequence of `addPlayer`/`removePlayer`
operations (from the manager's initial empty registry), the room's active
player set never exceeds its capacity; and `addPlayer(roomId, player)`
returns `false` (it is a total function, so no exception) whenever the room
is unknown or its active set already has `maxPlayers` members — leaving the
state unchanged — and otherwise registers the player and returns `true`. -/
theorem C1_capacity :
    (∀ (db : DB) (ops : List ConnOp), capacityInv (applyConnOps ⟨db, []⟩ ops))
    ∧ ∀ (st : RMState) (roomId : String) (p : Player) (now : Nat),
        (dbGetRoom st.db roomId = none →
          mgrAddPlayer st roomId p now = (false, st))
        ∧ (∀ room : RoomRow, dbGetRoom st.db roomId = some room →
            effMax room ≤ (playersOf st roomId).length →
            mgrAddPlayer st roomId p now = (false, st))
        ∧ (∀ room : RoomRow, dbGetRoom st.db roomId = some room →
            (playersOf st roomId).length < effMax room →
            (mgrAddPlayer st roomId p now).1 = true
            ∧ p ∈ playersOf (mgrAddPlayer st roomId p now).2 roomId) := by
  refine ⟨capacityInv_applyConnOps, ?_⟩
  intro st roomId p now
  exact ⟨mgrAddPlayer_unknown st roomId p now,
    fun room h1 h2 => mgrAddPlayer_full st roomId p now room h1 h2,
    fun room h1 h2 => mgrAddPlayer_success st roomId p now room h1 h2⟩

/-- Witness for C1: the three `addPlayer` behaviors at concrete inputs —
an unknown room, a full room (4/4 players), and a joinable room. -/
theorem C1_capacity_witness :
    mgrAddPlayer stEmptyW "nope" ⟨"p1", "P1", false⟩ 7 = (false, stEmptyW)
    ∧ mgrAddPlayer stFullW "r" ⟨"p1", "P1", false⟩ 7 = (false, stFullW)
    ∧ (mgrAddPlayer stEmptyW "r" ⟨"p1", "P1", false⟩ 7).1 = true
    ∧ (⟨"p1", "P1", false⟩ : Player) ∈
        playersOf (mgrAddPlayer stEmptyW "r" ⟨"p1", "P1", false⟩ 7).2 "r" :=
  ⟨(C1_capacity.2 stEmptyW "nope" ⟨"p1", "P1", false⟩ 7).1 (by decide),
    (C1_capacity.2 stFullW "r" ⟨"p1", "P1", false⟩ 7).2.1 roomW (by decide) (by decide),
    ((C1_capacity.2 stEmptyW "r" ⟨"p1", "P1", false⟩ 7).2.2 roomW (by decide) (by decide)).1,
    ((C1_capacity.2 stEmptyW "r" ⟨"p1", "P1", false⟩ 7).2.2 roomW (by decide) (by decide)).2⟩

/-! ### Claim C4 -/

/-- C4: the compaction pass deletes a persisted drawing event only if the
event is older than the cutoff *and* its room has a snapshot with
`timestamp ≥ cutoff` (indeed `> cutoff`), which also strictly exceeds the
event's own timestamp (so the event is subsumed by a durable snapshot); in
particular no event with `timestamp ≥ cutoff` is ever deleted. -/
theorem C4_compaction_safety (db : DB) (cutoff : Nat) (e : DrawRow)
    (hmem : e ∈ db.drawing_events)
    (hdel : e ∉ (dbCleanupOldData db cutoff).drawing_events) :
    e.timestamp < cutoff
    ∧ ∃ s ∈ db.canvas_snapshots, s.room_id = e.room_id ∧ cutoff ≤ s.timestamp
        ∧ e.timestamp < s.timestamp := by
  cases hb : (decide (e.timestamp < cutoff) &&
      db.canvas_snapshots.any (fun s => s.room_id == e.room_id &&
        decide (cutoff < s.timestamp))) with
  | false =>
    exfalso
    apply hdel
    unfold dbCleanupOldData
    exact List.mem_filter.mpr ⟨hmem, by simp [hb]⟩
  | true =>
    simp only [Bool.and_eq_true, List.any_eq_true, decide_eq_true_eq,
      beq_iff_eq] at hb
    obtain ⟨hts, s, hs, hsroom, hscut⟩ := hb
    exact ⟨hts, s, hs, hsroom, by omega, by omega⟩

/-- Witness for C4: with an event at `t = 1`, a snapshot at `t = 100` and
cutoff `50`, the event is deleted and the theorem's conclusion holds. -/
theorem C4_compaction_safety_witness :
    (⟨1, "r", "p", "draw", dataW, 1⟩ : DrawRow) ∈ dbC4.drawing_events
    ∧ (⟨1, "r", "p", "draw", dataW, 1⟩ : DrawRow) ∉
        (dbCleanupOldData dbC4 50).drawing_events
    ∧ ((1 : Nat) < 50
        ∧ ∃ s ∈ dbC4.canvas_snapshots, s.room_id = "r" ∧ 50 ≤ s.timestamp
            ∧ 1 < s.timestamp) :=
  ⟨by decide, by decide,
    C4_compaction_safety dbC4 50 ⟨1, "r", "p", "draw", dataW, 1⟩
      (by decide) (by decide)⟩

/-! ### Claim C8 -/

theorem snapInv_empty : snapInv emptyDB := by
  intro rid
  simp [emptyDB]

theorem snapInv_preserved (db : DB) (op : DbOp) (h : snapInv db) :
    snapInv (applyDbOp db op) := by
  intro rid
  cases op with
  | createRoomOp id name isCustom now => exact h rid
  | addChatMessageOp roomId pid pname text ts => exact h rid
  | clearChatHistoryOp roomId => exact h rid
  | addDrawingEventOp roomId pid etype data ts => exact h rid
  | clearDrawingEventsOp roomId => exact h rid
  | cleanupOldDataOp cutoff => exact h rid
  | deleteRoomOp roomId =>
    exact le_trans
      (List.Sublist.length_le (List.Sublist.filter _ (List.filter_sublist _)))
      (h rid)
  | clearCanvasSnapshotOp roomId =>
    exact le_trans
      (List.Sublist.length_le (List.Sublist.filter _ (List.filter_sublist _)))
      (h rid)
  | saveCanvasSnapshotOp roomId data ts =>
    show ((db.canvas_snapshots.filter (fun s : SnapRow => s.room_id != roomId) ++
        [(⟨db.nextSnapId, roomId, data, ts⟩ : SnapRow)]).filter
          (fun s : SnapRow => s.room_id == rid)).length ≤ 1
    rw [List.filter_append]
    by_cases hr : rid = roomId
    · subst hr
      have h1 : (db.canvas_snapshots.filter (fun s => s.room_id != rid)).filter
          (fun s : SnapRow => s.room_id == rid) = [] := by
        rw [List.filter_eq_nil_iff]
        intro a ha
        have := List.of_mem_filter ha
        simp at this ⊢
        exact this
      rw [h1]
      simp
    · have hne : (roomId == rid) = false := by
        simp only [beq_eq_false_iff_ne, ne_eq]
        exact fun hh => hr hh.symm
      have h2 : (([(⟨db.nextSnapId, roomId, data, ts⟩ : SnapRow)] : List SnapRow)).filter
          (fun s : SnapRow => s.room_id == rid) = [] := by
        simp [List.filter, hne]
      rw [h2, List.append_nil]
      exact le_trans
        (List.Sublist.length_le (List.Sublist.filter _ (List.filter_sublist _)))
        (h rid)

theorem snapInv_applyDbOps (ops : List DbOp) : snapInv (applyDbOps emptyDB ops) := by
  have hall : ∀ (ops : List DbOp) (db : DB), snapInv db →
      snapInv (applyDbOps db ops) := by
    intro ops
    induction ops with
    | nil => exact fun db h => h
    | cons op rest ih => exact fun db h => ih _ (snapInv_preserved db op h)
  exact hall ops emptyDB snapInv_empty

/-- C8: at most one snapshot row exists per room after any sequence of
database operations, and `saveCanvasSnapshot` atomically replaces the room's
snapshot: reading it back returns exactly the newly saved data/timestamp,
for any prior database contents. -/
theorem C8_single_snapshot :
    (∀ ops : List DbOp, snapInv (applyDbOps emptyDB ops))
    ∧ ∀ (db : DB) (roomId data : String) (ts : Nat),
        dbGetCanvasSnapshot (dbSaveCanvasSnapshot db roomId data ts) roomId =
          some ⟨data, ts⟩ := by
  refine ⟨snapInv_applyDbOps, ?_⟩
  intro db roomId data ts
  unfold dbGetCanvasSnapshot dbSaveCanvasSnapshot
  have h1 : ((db.canvas_snapshots.filter (fun s : SnapRow => s.room_id != roomId) ++
      [(⟨db.nextSnapId, roomId, data, ts⟩ : SnapRow)]).filter (fun s : SnapRow => s.room_id == roomId)) =
      [(⟨db.nextSnapId, roomId, data, ts⟩ : SnapRow)] := by
    rw [List.filter_append]
    have h2 : (db.canvas_snapshots.filter (fun s : SnapRow => s.room_id != roomId)).filter
        (fun s : SnapRow => s.room_id == roomId) = [] := by
      rw [List.filter_eq_nil_iff]
      intro a ha
      have := List.of_mem_filter ha
      simp at this ⊢
      exact this
    rw [h2, List.nil_append]
    simp [List.filter]
  simp only [h1]
  rfl

/-! ### Claim C7 -/

theorem mgrDeleteRoom_custom (st : RMState) (roomId : String) (room : RoomRow)
    (h : dbGetRoom st.db roomId = some room) (hc : room.is_custom = 1) :
    mgrDeleteRoom st roomId =
      (true, ⟨dbDeleteRoom st.db roomId, aerase st.activeRooms roomId⟩) := by
  unfold mgrDeleteRoom
  rw [h]
  dsimp only
  rw [if_neg (fun hh => hh hc)]

theorem alookup_aerase {β : Type} (l : List (String × β)) (k : String) :
    alookup (aerase l k) k = none := by
  unfold alookup aerase
  have : (l.filter (fun kv => kv.1 != k)).find? (fun kv => kv.1 == k) = none := by
    rw [List.find?_eq_none]
    intro x hx
    have := List.of_mem_filter hx
    simp at this ⊢
    exact this
  rw [this]
  rfl

/-- C7: `DELETE /api/rooms/:roomId` answers `403` (`PermissionError`) for a
non-custom room, `400` (`ConflictError`) when the active player count is
positive, and otherwise succeeds, removing the room row together with all of
its persisted chat messages, drawing events and snapshots, and detaching the
in-memory active entry. -/
theorem C7_deleteRoom (st : RMState) (roomId : String) (room : RoomRow)
    (h : dbGetRoom st.db roomId = some room) :
    (room.is_custom ≠ 1 → deleteRoomEndpoint st roomId = (.permissionDenied, st))
    ∧ (room.is_custom = 1 → 0 < mgrActivePlayerCount st roomId →
        deleteRoomEndpoint st roomId = (.conflict, st))
    ∧ (room.is_custom = 1 → mgrActivePlayerCount st roomId = 0 →
        (deleteRoomEndpoint st roomId).1 = .okDeleted
        ∧ (∀ r ∈ (deleteRoomEndpoint st roomId).2.db.rooms, r.id ≠ roomId)
        ∧ (∀ m ∈ (deleteRoomEndpoint st roomId).2.db.chat_messages, m.room_id ≠ roomId)
        ∧ (∀ e ∈ (deleteRoomEndpoint st roomId).2.db.drawing_events, e.room_id ≠ roomId)
        ∧ (∀ sn ∈ (deleteRoomEndpoint st roomId).2.db.canvas_snapshots,
            sn.room_id ≠ roomId)
        ∧ alookup (deleteRoomEndpoint st roomId).2.activeRooms roomId = none) := by
  unfold deleteRoomEndpoint mgrGetRoomInfo
  rw [h]
  refine ⟨?_, ?_, ?_⟩
  · intro hnc
    have hb : (room.is_custom == 1) = false := by simp [hnc]
    simp only [Option.map_some', hb]
    rfl
  · intro hc hcount
    have hb : (room.is_custom == 1) = true := by simp [hc]
    simp only [Option.map_some', hb]
    simp only [Bool.not_true, Bool.false_eq_true, if_false, if_pos hcount]
  · intro hc hcount
    have hb : (room.is_custom == 1) = true := by simp [hc]
    simp only [Option.map_some', hb, Bool.not_true, Bool.false_eq_true, if_false,
      hcount]
    rw [mgrDeleteRoom_custom st roomId room h hc]
    refine ⟨rfl, ?_, ?_, ?_, ?_, ?_⟩
    · intro r hr
      have := List.of_mem_filter hr
      simpa using this
    · intro m hm
      have := List.of_mem_filter hm
      simpa using this
    · intro e he
      have := List.of_mem_filter he
      simpa using this
    · intro sn hsn
      have := List.of_mem_filter hsn
      simpa using this
    · exact alookup_aerase st.activeRooms roomId

/-- Witness for C7: deleting the built-in room `"r"` is refused, deleting the
occupied custom room `"c"` conflicts, and deleting the empty custom room
`"c"` succeeds. -/
theorem C7_deleteRoom_witness :
    deleteRoomEndpoint stEmptyW "r" = (.permissionDenied, stEmptyW)
    ∧ deleteRoomEndpoint stC7 "c" = (.conflict, stC7)
    ∧ (deleteRoomEndpoint stEmptyW "c").1 = .okDeleted :=
  ⟨(C7_deleteRoom stEmptyW "r" roomW (by decide)).1 (by decide),
    (C7_deleteRoom stC7 "c" customRoomW (by decide)).2.1 (by decide) (by decide),
    ((C7_deleteRoom stEmptyW "c" customRoomW (by decide)).2.2 (by decide)
      (by decide)).1⟩

/-! ### Claim C5 -/

theorem connReady_some (conn : ConnState) (rid pid : String)
    (hr : conn.currentRoomId = some rid) (hp : conn.playerId = some pid)
    (hrne : rid ≠ "") (hpne : pid ≠ "") :
    connReady conn = some (rid, pid) := by
  unfold connReady
  rw [hr, hp]
  dsimp only
  rw [if_neg (by simp [hrne, hpne])]

/-- C5 (amended): if the incoming chat text is empty, trims to nothing, or
its *untrimmed* length exceeds 140 UTF-16 units, `handleChatMessage` silently
drops it — no state change, no broadcast, and no error reply (the handler has
no reply channel at all); otherwise the trimmed text is persisted (appended
to the room's chat log) and broadcast to the room without exclusion. -/
theorem C5_chat_validation (conn : ConnState) (st : RMState) (text : String)
    (now : Nat) (rid pid : String)
    (hr : conn.currentRoomId = some rid) (hp : conn.playerId = some pid)
    (hrne : rid ≠ "") (hpne : pid ≠ "") :
    ((text = "" ∨ utf16Len (jsTrim text) = 0 ∨ 140 < utf16Len text) →
      handleChatMessage conn st text now = (st, []))
    ∧ (text ≠ "" → utf16Len (jsTrim text) ≠ 0 → utf16Len text ≤ 140 →
        (handleChatMessage conn st text now).1.db.chat_messages =
          st.db.chat_messages ++
            [⟨st.db.nextChatId, rid, pid, conn.playerName.getD "", jsTrim text, now⟩]
        ∧ (handleChatMessage conn st text now).2 =
            [⟨rid, .chatOut ⟨pid, conn.playerName.getD "", jsTrim text, now⟩, none⟩]) := by
  have hcr := connReady_some conn rid pid hr hp hrne hpne
  unfold handleChatMessage
  rw [hcr]
  dsimp only
  constructor
  · intro hbad
    rcases hbad with hb | hb | hb
    · rw [if_pos (Or.inl hb)]
    · rw [if_pos (Or.inr hb)]
    · by_cases hz : text = "" ∨ utf16Len (jsTrim text) = 0
      · rw [if_pos hz]
      · rw [if_neg hz, if_pos hb]
  · intro h1 h2 h3
    rw [if_neg (by simp [h1, h2]), if_neg (by omega)]
    constructor
    · unfold mgrAddChatMessage
      cases ha : alookup st.activeRooms rid with
      | some ar =>
        simp only [ha]
        rfl
      | none =>
        simp only [ha]
        rfl
    · rfl

set_option maxRecDepth 4096 in
/-- Counterexample for C5 as stated: a message of 140 `'a'`s plus one
trailing space has exactly 140 code points after trimming (so the claim says
it must be persisted and broadcast), yet the handler drops it without any
state change, broadcast, or notification, because the code checks
`text.length > 140` *before* trimming and never replies on rejection. -/
theorem C5_counterexample :
    jsTrim textC5 ≠ "" ∧ utf16Len (jsTrim textC5) = 140
    ∧ handleChatMessage connC5 stC5 textC5 9 = (stC5, []) := by
  refine ⟨by decide, by decide, ?_⟩
  decide

/-- Witness for C5: the empty text is dropped, and a valid text `"hi"` is
persisted with the connection's attribution. -/
theorem C5_chat_validation_witness :
    handleChatMessage connC5 stC5 "" 9 = (stC5, [])
    ∧ (handleChatMessage connC5 stC5 "hi" 9).1.db.chat_messages =
        stC5.db.chat_messages ++ [⟨1, "r", "p", "Pat", "hi", 9⟩] :=
  ⟨(C5_chat_validation connC5 stC5 "" 9 "r" "p" rfl rfl (by decide)
      (by decide)).1 (Or.inl rfl),
    ((C5_chat_validation connC5 stC5 "hi" 9 "r" "p" rfl rfl (by decide)
      (by decide)).2 (by decide) (by decide) (by decide)).1⟩

/-! ### Claim C6 -/

theorem mgrAddDrawingEvent_dbFacts (st : RMState) (rid : String) (e : DrawOut)
    (now : Nat) :
    (mgrAddDrawingEvent st rid e now).db.drawing_events =
      st.db.drawing_events ++ [⟨st.db.nextDrawId, rid, e.playerId,
        (if e.etype = "" then "draw" else e.etype),
        ⟨e.points, e.color, e.size, e.tool⟩, e.timestamp⟩]
    ∧ (mgrAddDrawingEvent st rid e now).db.nextDrawId = st.db.nextDrawId + 1
    ∧ (mgrAddDrawingEvent st rid e now).db.chat_messages = st.db.chat_messages
    ∧ (mgrAddDrawingEvent st rid e now).db.nextChatId = st.db.nextChatId := by
  unfold mgrAddDrawingEvent mgrGetActiveRoom
  dsimp only
  cases ha : alookup st.activeRooms rid with
  | some ar =>
    simp only [ha]
    exact ⟨rfl, rfl, rfl, rfl⟩
  | none =>
    simp only [ha]
    exact ⟨rfl, rfl, rfl, rfl⟩

theorem mgrAddChatMessage_dbFacts (st : RMState) (rid : String) (m : ChatOut)
    (now : Nat) :
    (mgrAddChatMessage st rid m now).db.chat_messages =
      st.db.chat_messages ++ [⟨st.db.nextChatId, rid, m.playerId, m.playerName,
        m.text, m.timestamp⟩]
    ∧ (mgrAddChatMessage st rid m now).db.nextChatId = st.db.nextChatId + 1
    ∧ (mgrAddChatMessage st rid m now).db.drawing_events = st.db.drawing_events
    ∧ (mgrAddChatMessage st rid m now).db.nextDrawId = st.db.nextDrawId := by
  unfold mgrAddChatMessage
  cases ha : alookup st.activeRooms rid with
  | some ar =>
    simp only [ha]
    exact ⟨rfl, rfl, rfl, rfl⟩
  | none =>
    simp only [ha]
    exact ⟨rfl, rfl, rfl, rfl⟩

theorem processQueue_spec (rid pid pname : String) (now : Nat) :
    ∀ (events : List QueuedEvent) (st : RMState),
      (processQueue rid pid pname now st events).1.db.drawing_events =
        st.db.drawing_events ++ replayDrawRows rid pid now st.db.nextDrawId events
      ∧ (processQueue rid pid pname now st events).1.db.chat_messages =
        st.db.chat_messages ++
          replayChatRows rid pid pname now st.db.nextChatId events
      ∧ (processQueue rid pid pname now st events).2 =
        replayBroadcasts rid pid pname now events := by
  intro events
  induction events with
  | nil =>
    intro st
    exact ⟨by simp [processQueue, replayDrawRows],
      by simp [processQueue, replayChatRows],
      by simp [processQueue, replayBroadcasts]⟩
  | cons e rest ih =>
    intro st
    by_cases hd : e.qtype = "draw"
    · have happ : applyQueued rid pid pname now st e =
          (mgrAddDrawingEvent st rid ⟨pid, "draw", e.points, e.color, e.size,
            (if e.tool = "" then "pen" else e.tool), jsTsOr e.timestamp now⟩ now,
          [⟨rid, .drawOut ⟨pid, "draw", e.points, e.color, e.size,
            (if e.tool = "" then "pen" else e.tool), jsTsOr e.timestamp now⟩,
            some pid⟩]) := by
        unfold applyQueued
        rw [if_pos hd]
      set st1 := (applyQueued rid pid pname now st e).1 with hst1
      have hbs1 : (applyQueued rid pid pname now st e).2 =
          [⟨rid, .drawOut ⟨pid, "draw", e.points, e.color, e.size,
            (if e.tool = "" then "pen" else e.tool), jsTsOr e.timestamp now⟩,
            some pid⟩] := by rw [happ]
      obtain ⟨hf1, hf2, hf3, hf4⟩ := mgrAddDrawingEvent_dbFacts st rid
        ⟨pid, "draw", e.points, e.color, e.size,
          (if e.tool = "" then "pen" else e.tool), jsTsOr e.timestamp now⟩ now
      have hq : processQueue rid pid pname now st (e :: rest) =
          ((processQueue rid pid pname now st1 rest).1,
            (applyQueued rid pid pname now st e).2 ++
              (processQueue rid pid pname now st1 rest).2) := rfl
      obtain ⟨ih1, ih2, ih3⟩ := ih st1
      rw [hq]
      have hst1' : st1 = mgrAddDrawingEvent st rid ⟨pid, "draw", e.points,
          e.color, e.size, (if e.tool = "" then "pen" else e.tool),
          jsTsOr e.timestamp now⟩ now := by rw [hst1, happ]
      refine ⟨?_, ?_, ?_⟩
      · rw [ih1, hst1', hf1, hf2]
        rw [List.append_assoc]
        congr 1
        show _ = replayDrawRows rid pid now st.db.nextDrawId (e :: rest)
        rw [replayDrawRows, if_pos hd]
        rfl
      · rw [ih2, hst1', hf3, hf4]
        congr 1
        show _ = replayChatRows rid pid pname now st.db.nextChatId (e :: rest)
        rw [replayChatRows, if_pos hd]
      · rw [ih3, hbs1]
        show _ = replayBroadcasts rid pid pname now (e :: rest)
        rw [replayBroadcasts, if_pos hd]
        rfl
    · by_cases hm : e.qtype = "message"
      · have happ : applyQueued rid pid pname now st e =
            (mgrAddChatMessage st rid
              ⟨pid, pname, e.text, jsTsOr e.timestamp now⟩ now,
            [⟨rid, .chatOut ⟨pid, pname, e.text, jsTsOr e.timestamp now⟩,
              none⟩]) := by
          unfold applyQueued
          rw [if_neg hd, if_pos hm]
        set st1 := (applyQueued rid pid pname now st e).1 with hst1
        have hbs1 : (applyQueued rid pid pname now st e).2 =
            [⟨rid, .chatOut ⟨pid, pname, e.text, jsTsOr e.timestamp now⟩,
              none⟩] := by rw [happ]
        obtain ⟨hf1, hf2, hf3, hf4⟩ := mgrAddChatMessage_dbFacts st rid
          ⟨pid, pname, e.text, jsTsOr e.timestamp now⟩ now
        have hq : processQueue rid pid pname now st (e :: rest) =
            ((processQueue rid pid pname now st1 rest).1,
              (applyQueued rid pid pname now st e).2 ++
                (processQueue rid pid pname now st1 rest).2) := rfl
        obtain ⟨ih1, ih2, ih3⟩ := ih st1
        rw [hq]
        have hst1' : st1 = mgrAddChatMessage st rid
            ⟨pid, pname, e.text, jsTsOr e.timestamp now⟩ now := by
          rw [hst1, happ]
        refine ⟨?_, ?_, ?_⟩
        · rw [ih1, hst1', hf3, hf4]
          congr 1
          show _ = replayDrawRows rid pid now st.db.nextDrawId (e :: rest)
          rw [replayDrawRows, if_neg hd]
        · rw [ih2, hst1', hf1, hf2]
          rw [List.append_assoc]
          congr 1
          show _ = replayChatRows rid pid pname now st.db.nextChatId (e :: rest)
          rw [replayChatRows, if_neg hd, if_pos hm]
          rfl
        · rw [ih3, hbs1]
          show _ = replayBroadcasts rid pid pname now (e :: rest)
          rw [replayBroadcasts, if_neg hd, if_pos hm]
          rfl
      · have happ : applyQueued rid pid pname now st e = (st, []) := by
          unfold applyQueued
          rw [if_neg hd, if_neg hm]
        set st1 := (applyQueued rid pid pname now st e).1 with hst1
        have hst1' : st1 = st := by rw [hst1, happ]
        have hbs1 : (applyQueued rid pid pname now st e).2 = [] := by rw [happ]
        have hq : processQueue rid pid pname now st (e :: rest) =
            ((processQueue rid pid pname now st1 rest).1,
              (applyQueued rid pid pname now st e).2 ++
                (processQueue rid pid pname now st1 rest).2) := rfl
        obtain ⟨ih1, ih2, ih3⟩ := ih st1
        rw [hq]
        refine ⟨?_, ?_, ?_⟩
        · rw [ih1, hst1']
          congr 1
          show _ = replayDrawRows rid pid now st.db.nextDrawId (e :: rest)
          rw [replayDrawRows, if_neg hd]
        · rw [ih2, hst1']
          congr 1
          show _ = replayChatRows rid pid pname now st.db.nextChatId (e :: rest)
          rw [replayChatRows, if_neg hd, if_neg hm]
        · rw [ih3, hbs1]
          show _ = replayBroadcasts rid pid pname now (e :: rest)
          rw [replayBroadcasts, if_neg hd, if_neg hm]
          rfl

theorem replayDrawRows_length (rid pid : String) (now : Nat) :
    ∀ (events : List QueuedEvent) (nid : Nat),
      (replayDrawRows rid pid now nid events).length =
        events.countP (fun e => e.qtype == "draw") := by
  intro events
  induction events with
  | nil => intro nid; rfl
  | cons e rest ih =>
    intro nid
    by_cases hd : e.qtype = "draw"
    · rw [replayDrawRows, if_pos hd]
      simp [List.countP_cons, hd, ih]
    · rw [replayDrawRows, if_neg hd]
      have : (e.qtype == "draw") = false := by simp [hd]
      simp [List.countP_cons, this, ih]

theorem replayBroadcasts_length (rid pid pname : String) (now : Nat) :
    ∀ events : List QueuedEvent,
      (replayBroadcasts rid pid pname now events).length =
        events.countP (fun e => e.qtype == "draw" || e.qtype == "message") := by
  intro events
  induction events with
  | nil => rfl
  | cons e rest ih =>
    by_cases hd : e.qtype = "draw"
    · rw [replayBroadcasts, if_pos hd]
      simp [List.countP_cons, hd, ih]
    · by_cases hm : e.qtype = "message"
      · rw [replayBroadcasts, if_neg hd, if_pos hm]
        simp [List.countP_cons, hm, ih]
      · rw [replayBroadcasts, if_neg hd, if_neg hm]
        have h1 : (e.qtype == "draw") = false := by simp [hd]
        have h2 : (e.qtype == "message") = false := by simp [hm]
        simp [List.countP_cons, h1, h2, ih]

/-- C6 (amended): `handleQueueReplay` processes exactly the buffered events
of kind `draw` or `message` (every other kind contributes nothing), re-stamps
`playerId`/`playerName` with the connection's server-side identity, takes the
timestamp from the event *when it is present and nonzero* (a zero timestamp
is falsy in JS and is replaced by the receipt time, like an absent one),
appends each accepted event to the persisted log and emits one broadcast per
accepted event; no deduplication is performed, so the same buffered draw
event submitted twice yields two persisted drawing rows and two
broadcasts. -/
theorem C6_queueReplay (conn : ConnState) (st : RMState)
    (events : List QueuedEvent) (now : Nat) (rid pid : String)
    (hr : conn.currentRoomId = some rid) (hp : conn.playerId = some pid)
    (hrne : rid ≠ "") (hpne : pid ≠ "") :
    (handleQueueReplay conn st events now).1.db.drawing_events =
      st.db.drawing_events ++ replayDrawRows rid pid now st.db.nextDrawId events
    ∧ (handleQueueReplay conn st events now).1.db.chat_messages =
      st.db.chat_messages ++ replayChatRows rid pid (conn.playerName.getD "")
        now st.db.nextChatId events
    ∧ (handleQueueReplay conn st events now).2 =
      replayBroadcasts rid pid (conn.playerName.getD "") now events
    ∧ (∀ e : QueuedEvent, e.qtype = "draw" →
        (handleQueueReplay conn st [e, e] now).1.db.drawing_events.length =
          st.db.drawing_events.length + 2
        ∧ (handleQueueReplay conn st [e, e] now).2.length = 2) := by
  have hcr := connReady_some conn rid pid hr hp hrne hpne
  have hun : ∀ evs : List QueuedEvent, handleQueueReplay conn st evs now =
      processQueue rid pid (conn.playerName.getD "") now st evs := by
    intro evs
    unfold handleQueueReplay
    rw [hcr]
  obtain ⟨h1, h2, h3⟩ := processQueue_spec rid pid (conn.playerName.getD "")
    now events st
  refine ⟨?_, ?_, ?_, ?_⟩
  · rw [hun events]
    exact h1
  · rw [hun events]
    exact h2
  · rw [hun events]
    exact h3
  · intro e hd
    obtain ⟨g1, g2, g3⟩ := processQueue_spec rid pid (conn.playerName.getD "")
      now [e, e] st
    have hb : (e.qtype == "draw") = true := by simp [hd]
    constructor
    · rw [hun [e, e], g1, List.length_append, replayDrawRows_length]
      simp [List.countP_cons, hb]
    · rw [hun [e, e], g3, replayBroadcasts_length]
      simp [List.countP_cons, hb]

/-- Counterexample for C6 as stated: a buffered draw event that *does* carry
a timestamp, namely `0`, is not persisted with that timestamp — the code's
`event.timestamp || Date.now()` treats the present-but-zero value as absent
and stamps the receipt time (`99`) instead. -/
theorem C6_counterexample :
    evC6.timestamp = some 0
    ∧ (handleQueueReplay connC5 stC5 [evC6] 99).1.db.drawing_events.map
        (fun r => r.timestamp) = [99] :=
  ⟨rfl, by decide⟩

/-- Witness for C6: replaying the same buffered draw event twice persists two
drawing rows and emits two broadcasts. -/
theorem C6_queueReplay_witness :
    (handleQueueReplay connC5 stC5 [evC6, evC6] 99).1.db.drawing_events.length =
      stC5.db.drawing_events.length + 2
    ∧ (handleQueueReplay connC5 stC5 [evC6, evC6] 99).2.length = 2 :=
  (C6_queueReplay connC5 stC5 [evC6, evC6] 99 "r" "p" rfl rfl (by decide)
    (by decide)).2.2.2 evC6 rfl

/-! ### Claim C3 -/

theorem dbGetDrawingEvents_eq_filter (db : DB) (roomId : String) (T : Nat) :
    dbGetDrawingEvents db roomId T =
      (fullDrawingHistory db roomId).filter
        (fun e => decide (T < e.timestamp)) := by
  unfold dbGetDrawingEvents fullDrawingHistory
  rw [List.filter_map, filter_insertionSort]
  congr 1
  rw [List.filter_filter]
  congr 1
  apply List.filter_congr
  intro a _
  show (a.room_id == roomId && decide (T < a.timestamp)) =
    (decide (T < (drawProj a).timestamp) && (a.room_id == roomId))
  rw [Bool.and_comm]
  rfl

theorem fullDrawingHistory_sorted_ts (db : DB) (roomId : String) :
    (fullDrawingHistory db roomId).Pairwise
      (fun a b => a.timestamp ≤ b.timestamp) := by
  unfold fullDrawingHistory
  rw [List.pairwise_map]
  apply List.Pairwise.imp ?_ (List.sorted_insertionSort drawLe _)
  intro a b hab
  unfold drawLe lexLe drawKey at hab
  show a.timestamp ≤ b.timestamp
  omega

/-- C3: for a room with a snapshot, replaying the snapshot's canvas state
(assumed, per the snapshot contract, to summarize exactly the drawing events
with `timestamp ≤ snapshot.timestamp`) followed by the persisted drawing
events strictly after the snapshot's timestamp — as served, in ascending
`(timestamp, id)` order — reconstructs the same canvas as replaying the full
drawing-event history from room creation, for *every* canvas interpretation
`stepFn`. -/
theorem C3_snapshot_roundtrip {C : Type} (stepFn : C → DrawOut → C)
    (init snapC : C) (db : DB) (roomId : String) (snap : SnapOut)
    (_hsnap : dbGetCanvasSnapshot db roomId = some snap)
    (hsum : snapC = replayEvents stepFn init
      ((fullDrawingHistory db roomId).filter
        (fun e => decide (e.timestamp ≤ snap.timestamp)))) :
    replayEvents stepFn snapC (dbGetDrawingEvents db roomId snap.timestamp) =
      replayEvents stepFn init (fullDrawingHistory db roomId) := by
  rw [hsum, dbGetDrawingEvents_eq_filter]
  unfold replayEvents
  rw [← List.foldl_append]
  congr 1
  exact filter_le_append_filter_gt (fun e : DrawOut => e.timestamp)
    snap.timestamp _ (fullDrawingHistory_sorted_ts db roomId)

/-- Witness for C3: the round trip at the concrete room `"r"` of `dbC2`
(snapshot at `t = 10`, events at `t = 5` and `t = 15`), with the free list
interpretation of the canvas. -/
theorem C3_snapshot_roundtrip_witness :
    replayEvents (fun (l : List DrawOut) e => l ++ [e])
      (replayEvents (fun (l : List DrawOut) e => l ++ [e]) []
        ((fullDrawingHistory dbC2 "r").filter
          (fun e : DrawOut => decide (e.timestamp ≤ (10 : Nat)))))
      (dbGetDrawingEvents dbC2 "r" 10) =
      replayEvents (fun (l : List DrawOut) e => l ++ [e]) []
        (fullDrawingHistory dbC2 "r") :=
  C3_snapshot_roundtrip (fun l e => l ++ [e]) [] _ dbC2 "r" ⟨"snapdata", 10⟩
    (by decide) rfl

/-! ### Claim C2 -/

theorem dbGetDrawingEvents_sorted_ts (db : DB) (roomId : String) (T : Nat) :
    (dbGetDrawingEvents db roomId T).Pairwise
      (fun a b => a.timestamp ≤ b.timestamp) := by
  unfold dbGetDrawingEvents
  rw [List.pairwise_map]
  apply List.Pairwise.imp ?_ (List.sorted_insertionSort drawLe _)
  intro a b hab
  unfold drawLe lexLe drawKey at hab
  show a.timestamp ≤ b.timestamp
  omega

theorem mem_dbGetDrawingEvents (db : DB) (roomId : String) (T : Nat)
    (row : DrawRow) (hrow : row ∈ db.drawing_events) (hr : row.room_id = roomId)
    (ht : T < row.timestamp) :
    drawProj row ∈ dbGetDrawingEvents db roomId T := by
  unfold dbGetDrawingEvents
  apply List.mem_map.mpr
  refine ⟨row, ?_, rfl⟩
  rw [(List.perm_insertionSort drawLe _).mem_iff]
  exact List.mem_filter.mpr ⟨hrow, by simp [hr, ht]⟩

theorem dbGetDrawingEvents_mem_spec (db : DB) (roomId : String) (T : Nat)
    (e : DrawOut) (he : e ∈ dbGetDrawingEvents db roomId T) :
    T < e.timestamp := by
  unfold dbGetDrawingEvents at he
  obtain ⟨row, hrow, hproj⟩ := List.mem_map.mp he
  rw [(List.perm_insertionSort drawLe _).mem_iff] at hrow
  obtain ⟨_, hcond⟩ := List.mem_filter.mp hrow
  simp only [Bool.and_eq_true, decide_eq_true_eq] at hcond
  rw [← hproj]
  exact hcond.2

theorem mgrGetRoomState_view (st : RMState) (roomId : String) (now : Nat)
    (room : RoomRow) (h : dbGetRoom st.db roomId = some room) :
    ∃ view st2, mgrGetRoomState st roomId now = (some view, st2)
      ∧ view.drawingEvents =
        dbGetDrawingEvents st.db roomId (snapshotBaseTs st.db roomId) := by
  unfold mgrGetRoomState
  rw [h]
  rcases hga : mgrGetActiveRoom st roomId now with ⟨ar, st1⟩
  refine ⟨_, _, rfl, ?_⟩
  unfold snapshotBaseTs
  cases hs : dbGetCanvasSnapshot st.db roomId with
  | some s => simp only [hs]
  | none => simp only [hs]

theorem handleRejoin_missed (st : RMState) (m : RejoinMsg) (now : Nat)
    (room : RoomRow) (h : dbGetRoom st.db m.roomId = some room)
    (hnotfull : (playersOf st m.roomId).length < effMax room) :
    missedOfReplies (handleRejoin st m now).replies =
      if m.lastEventTimestamp ≠ 0 then
        (dbGetDrawingEvents st.db m.roomId
            (snapshotBaseTs st.db m.roomId)).filter
          (fun e => decide (m.lastEventTimestamp < e.timestamp))
      else [] := by
  unfold handleRejoin
  rw [h]
  simp only [Option.isNone_some, Bool.false_eq_true, if_false]
  rcases hadd : mgrAddPlayer st m.roomId ⟨m.playerId, m.playerName, false⟩ now
    with ⟨added, st1⟩
  have haddt : added = true := by
    have := (mgrAddPlayer_success st m.roomId ⟨m.playerId, m.playerName, false⟩
      now room h hnotfull).1
    rw [hadd] at this
    exact this
  subst haddt
  have hdb : st1.db = st.db := by
    have := mgrAddPlayer_db st m.roomId ⟨m.playerId, m.playerName, false⟩ now
    rw [hadd] at this
    exact this
  rw [if_pos rfl]
  obtain ⟨view, st2, hview, hdraws⟩ := mgrGetRoomState_view st1 m.roomId now room
    (by rw [hdb]; exact h)
  dsimp only
  rw [hview]
  simp only [missedOfReplies]
  rw [hdraws, hdb]

/-- C2 (amended): on a successful rejoin, `missedEvents` is empty when the
supplied watermark `T` is `0` (JS-falsy), and otherwise contains exactly the
persisted drawing events of the room with timestamp strictly greater than
*both* `T` and the snapshot's timestamp (the state payload it filters already
excludes events at or before the snapshot), in ascending timestamp order; an
event with `timestamp = T` is never included. -/
theorem C2_rejoin_missedEvents (st : RMState) (m : RejoinMsg) (now : Nat)
    (room : RoomRow) (h : dbGetRoom st.db m.roomId = some room)
    (hnotfull : (playersOf st m.roomId).length < effMax room) :
    (m.lastEventTimestamp = 0 →
      missedOfReplies (handleRejoin st m now).replies = [])
    ∧ (m.lastEventTimestamp ≠ 0 →
      missedOfReplies (handleRejoin st m now).replies =
        (dbGetDrawingEvents st.db m.roomId
            (snapshotBaseTs st.db m.roomId)).filter
          (fun e => decide (m.lastEventTimestamp < e.timestamp)))
    ∧ (missedOfReplies (handleRejoin st m now).replies).Pairwise
        (fun a b => a.timestamp ≤ b.timestamp)
    ∧ (∀ e ∈ missedOfReplies (handleRejoin st m now).replies,
        m.lastEventTimestamp < e.timestamp
        ∧ snapshotBaseTs st.db m.roomId < e.timestamp)
    ∧ (m.lastEventTimestamp ≠ 0 → ∀ row ∈ st.db.drawing_events,
        row.room_id = m.roomId → snapshotBaseTs st.db m.roomId < row.timestamp →
        m.lastEventTimestamp < row.timestamp →
        drawProj row ∈ missedOfReplies (handleRejoin st m now).replies) := by
  have hmiss := handleRejoin_missed st m now room h hnotfull
  by_cases hT : m.lastEventTimestamp = 0
  · rw [hmiss, if_neg (by simp [hT])]
    refine ⟨fun _ => rfl, fun hc => absurd hT hc, List.Pairwise.nil, ?_, ?_⟩
    · intro e he
      exact absurd he (List.not_mem_nil e)
    · intro hc
      exact absurd hT hc
  · rw [hmiss, if_pos hT]
    refine ⟨fun hc => absurd hc hT, fun _ => rfl, ?_, ?_, ?_⟩
    · exact List.Pairwise.filter _ (dbGetDrawingEvents_sorted_ts st.db m.roomId _)
    · intro e he
      obtain ⟨hbase, hdec⟩ := List.mem_filter.mp he
      refine ⟨by simpa using hdec, ?_⟩
      exact dbGetDrawingEvents_mem_spec st.db m.roomId _ e hbase
    · intro _ row hrow hroom hbase hT2
      exact List.mem_filter.mpr
        ⟨mem_dbGetDrawingEvents st.db m.roomId _ row hrow hroom hbase,
          by simpa using hT2⟩

/-- Counterexample for C2 as stated: in `dbC2` room `"r"` has persisted
events at `t = 5` and `t = 15` and a snapshot at `t = 10`; a successful
rejoin with watermark `T = 3` returns only the event at `t = 15` as
`missedEvents` (the `t = 5` event is hidden behind the snapshot cutoff),
whereas `drawingEventsSince(roomId, 3)` contains both events — so
`missedEvents ≠ drawingEventsSince(roomId, T)`. -/
theorem C2_counterexample :
    missedOfReplies (handleRejoin stC2 msgC2 20).replies =
      [⟨"p", "draw", [⟨1, 1⟩], "#000000", 3, "pen", 15⟩]
    ∧ dbGetDrawingEvents dbC2 "r" 3 =
      [⟨"p", "draw", [⟨1, 1⟩], "#000000", 3, "pen", 5⟩,
        ⟨"p", "draw", [⟨1, 1⟩], "#000000", 3, "pen", 15⟩]
    ∧ missedOfReplies (handleRejoin stC2 msgC2 20).replies ≠
      dbGetDrawingEvents dbC2 "r" 3 := by
  refine ⟨by decide, by decide, by decide⟩

/-- Witness for C2: the amended characterization evaluated on the concrete
rejoin of `stC2` with watermark `3`. -/
theorem C2_rejoin_missedEvents_witness :
    missedOfReplies (handleRejoin stC2 msgC2 20).replies =
      (dbGetDrawingEvents stC2.db "r" (snapshotBaseTs stC2.db "r")).filter
        (fun e => decide ((3 : Nat) < e.timestamp)) :=
  (C2_rejoin_missedEvents stC2 msgC2 20 roomW (by decide) (by decide)).2.1
    (by decide)

/-! ### Claim C9 -/

theorem lexLt_of_lexLe_ne (p q : Nat × Nat) (h1 : lexLe p q) (h2 : p ≠ q) :
    lexLt p q := by
  rw [Ne, Prod.ext_iff] at h2
  unfold lexLe at h1
  unfold lexLt
  omega

/-- C9: `chatHistory(roomId, limit)` returns the projection of a block `kept`
of rows such that the room's persisted messages split (as a multiset) into
`kept ++ dropped`, `kept` holds `limit` rows (fewer if fewer exist) in
strictly ascending `(timestamp, id)` order, and every dropped row is
strictly older (by the `(timestamp, id)` key) than every returned row —
i.e. exactly the most recent `limit` messages in ascending order.  The
hypothesis that row ids are pairwise distinct is the `AUTOINCREMENT` primary
key guarantee. -/
theorem C9_chatHistory (db : DB) (roomId : String) (limit : Nat)
    (hids : db.chat_messages.Pairwise (fun a b => a.id ≠ b.id)) :
    ∃ kept dropped : List ChatRow,
      dbGetChatHistory db roomId limit = kept.map chatProj
      ∧ (db.chat_messages.filter (fun m => m.room_id == roomId)).Perm
          (kept ++ dropped)
      ∧ kept.length =
          min limit (db.chat_messages.filter (fun m => m.room_id == roomId)).length
      ∧ kept.Pairwise (fun a b => lexLt (chatKey a) (chatKey b))
      ∧ ∀ d ∈ dropped, ∀ k ∈ kept, lexLt (chatKey d) (chatKey k) := by
  have hperm := List.perm_insertionSort chatGe
    (db.chat_messages.filter (fun m => m.room_id == roomId))
  have hsorted := List.sorted_insertionSort chatGe
    (db.chat_messages.filter (fun m => m.room_id == roomId))
  set rows := db.chat_messages.filter (fun m => m.room_id == roomId) with hrows
  set s := rows.insertionSort chatGe with hs
  have hneq : s.Pairwise (fun a b => chatKey a ≠ chatKey b) := by
    have h0 : rows.Pairwise (fun a b => chatKey a ≠ chatKey b) := by
      apply List.Pairwise.imp ?_ (List.Pairwise.filter _ hids)
      intro a b hab hkey
      apply hab
      have := Prod.ext_iff.mp hkey
      exact this.2
    exact (List.Perm.pairwise_iff (fun hxy h => hxy h.symm) hperm).mpr h0
  have hstrict : s.Pairwise (fun a b => lexLt (chatKey b) (chatKey a)) := by
    apply List.Pairwise.imp₂ ?_ hsorted hneq
    intro a b h1 h2
    exact lexLt_of_lexLe_ne _ _ h1 (fun he => h2 he.symm)
  refine ⟨(s.take limit).reverse, s.drop limit, rfl, ?_, ?_, ?_, ?_⟩
  · have h3 : (s.take limit ++ s.drop limit).Perm
        ((s.take limit).reverse ++ s.drop limit) :=
      List.Perm.append (List.reverse_perm _).symm (List.Perm.refl _)
    have h4 : s.Perm ((s.take limit).reverse ++ s.drop limit) := by
      conv_lhs => rw [← List.take_append_drop limit s]
      exact h3
    exact hperm.symm.trans h4
  · rw [List.length_reverse, List.length_take, hperm.length_eq]
  · rw [List.pairwise_reverse]
    exact hstrict.sublist (List.take_sublist limit s)
  · intro d hd k hk
    have hk' : k ∈ s.take limit := List.mem_reverse.mp hk
    have hcross := (List.pairwise_append.mp
      ((List.take_append_drop limit s) ▸ hstrict)).2.2
    exact hcross k hk' d hd

/-- Witness for C9 at the concrete table `dbC9` (three messages in room
`"r"`, one timestamp tie broken by id) with `limit = 2`. -/
theorem C9_chatHistory_witness :
    ∃ kept dropped : List ChatRow,
      dbGetChatHistory dbC9 "r" 2 = kept.map chatProj
      ∧ (dbC9.chat_messages.filter (fun m => m.room_id == "r")).Perm
          (kept ++ dropped)
      ∧ kept.length =
          min 2 (dbC9.chat_messages.filter (fun m => m.room_id == "r")).length
      ∧ kept.Pairwise (fun a b => lexLt (chatKey a) (chatKey b))
      ∧ ∀ d ∈ dropped, ∀ k ∈ kept, lexLt (chatKey d) (chatKey k) :=
  C9_chatHistory dbC9 "r" 2 (by decide)

/-! ### Claim C10 -/

theorem handleJoin_rejected (st : RMState) (m : JoinMsg) (freshId : String)
    (now : Nat)
    (hrej : dbGetRoom st.db m.roomId = none ∨
      ∃ room, dbGetRoom st.db m.roomId = some room ∧
        effMax room ≤ (playersOf st m.roomId).length) :
    handleJoin st m freshId now =
      ⟨⟨some (if m.playerId = "" then freshId else m.playerId),
        some (if m.playerName = "" then
            "Player " ++ (if m.playerId = "" then freshId else m.playerId).take 4
          else m.playerName),
        some m.roomId⟩, st,
        [.errorMsg (if (dbGetRoom st.db m.roomId).isNone then
          "Room does not exist" else "Room is full")], []⟩ := by
  unfold handleJoin
  rcases hrej with hnone | ⟨room, hsome, hfull⟩
  · rw [hnone]
    rfl
  · rw [hsome]
    simp only [Option.isNone_some, Bool.false_eq_true, if_false]
    rw [mgrAddPlayer_full st m.roomId _ now room hsome hfull]
    rfl

theorem handleRejoin_rejected (st : RMState) (m : RejoinMsg) (now : Nat)
    (hrej : dbGetRoom st.db m.roomId = none ∨
      ∃ room, dbGetRoom st.db m.roomId = some room ∧
        effMax room ≤ (playersOf st m.roomId).length) :
    handleRejoin st m now =
      ⟨⟨some m.playerId, some m.playerName, some m.roomId⟩, st,
        [.errorMsg (if (dbGetRoom st.db m.roomId).isNone then
          "Room no longer exists" else "Room is full")], []⟩ := by
  unfold handleRejoin
  rcases hrej with hnone | ⟨room, hsome, hfull⟩
  · rw [hnone]
    rfl
  · rw [hsome]
    simp only [Option.isNone_some, Bool.false_eq_true, if_false]
    rw [mgrAddPlayer_full st m.roomId _ now room hsome hfull]
    rfl

theorem handleChatMessage_valid (conn : ConnState) (st : RMState)
    (text : String) (now : Nat) (rid pid : String)
    (hr : conn.currentRoomId = some rid) (hp : conn.playerId = some pid)
    (hrne : rid ≠ "") (hpne : pid ≠ "")
    (h1 : text ≠ "") (h2 : utf16Len (jsTrim text) ≠ 0)
    (h3 : utf16Len text ≤ 140) :
    (handleChatMessage conn st text now).1.db.chat_messages =
      st.db.chat_messages ++ [⟨st.db.nextChatId, rid, pid,
        conn.playerName.getD "", jsTrim text, now⟩]
    ∧ (handleChatMessage conn st text now).2 =
      [⟨rid, .chatOut ⟨pid, conn.playerName.getD "", jsTrim text, now⟩, none⟩] := by
  have hcr := connReady_some conn rid pid hr hp hrne hpne
  unfold handleChatMessage
  rw [hcr]
  dsimp only
  rw [if_neg (by simp [h1, h2]), if_neg (by omega)]
  refine ⟨?_, rfl⟩
  exact (mgrAddChatMessage_dbFacts st rid
    ⟨pid, conn.playerName.getD "", jsTrim text, now⟩ now).1

/-- C10: when a join *or a rejoin* is rejected (unknown room or room full),
the handler has already recorded the connection's
`playerId`/`playerName`/`currentRoomId` before the rejection check; the
rejected handler leaves the manager state unchanged and answers only an
error.  A subsequent `draw` or (valid) `message` from that same connection
is nevertheless persisted to that room's log and handed to the room's
broadcast fan-out, even though the player is not in the room's active set.
The first six conjuncts cover `handleJoin`; the last conjunct states the
same properties for every rejected `handleRejoin` on the same state. -/
theorem C10_rejected_join_still_writes (st : RMState) (m : JoinMsg)
    (freshId : String) (now : Nat)
    (hroom : m.roomId ≠ "")
    (hpid : (if m.playerId = "" then freshId else m.playerId) ≠ "")
    (hrej : dbGetRoom st.db m.roomId = none ∨
      ∃ room, dbGetRoom st.db m.roomId = some room ∧
        effMax room ≤ (playersOf st m.roomId).length) :
    (handleJoin st m freshId now).st = st
    ∧ (∃ emsg, (handleJoin st m freshId now).replies = [.errorMsg emsg])
    ∧ (handleJoin st m freshId now).broadcasts = []
    ∧ playersOf (handleJoin st m freshId now).st m.roomId = playersOf st m.roomId
    ∧ (∀ (dm : DrawMsg) (now2 : Nat),
        (handleDraw (handleJoin st m freshId now).conn
            (handleJoin st m freshId now).st dm now2).1.db.drawing_events =
          st.db.drawing_events ++ [⟨st.db.nextDrawId, m.roomId,
            (if m.playerId = "" then freshId else m.playerId), "draw",
            ⟨dm.points, dm.color, dm.size,
              (if dm.tool = "" then "pen" else dm.tool)⟩, now2⟩]
        ∧ (handleDraw (handleJoin st m freshId now).conn
            (handleJoin st m freshId now).st dm now2).2 =
          [⟨m.roomId, .drawOut ⟨(if m.playerId = "" then freshId else m.playerId),
            "draw", dm.points, dm.color, dm.size,
            (if dm.tool = "" then "pen" else dm.tool), now2⟩,
            some (if m.playerId = "" then freshId else m.playerId)⟩])
    ∧ (∀ (text : String) (now2 : Nat), text ≠ "" →
        utf16Len (jsTrim text) ≠ 0 → utf16Len text ≤ 140 →
        (handleChatMessage (handleJoin st m freshId now).conn
            (handleJoin st m freshId now).st text now2).1.db.chat_messages =
          st.db.chat_messages ++ [⟨st.db.nextChatId, m.roomId,
            (if m.playerId = "" then freshId else m.playerId),
            (if m.playerName = "" then
              "Player " ++ (if m.playerId = "" then freshId else m.playerId).take 4
            else m.playerName), jsTrim text, now2⟩])
    ∧ (∀ (m2 : RejoinMsg) (now2 : Nat), m2.roomId ≠ "" → m2.playerId ≠ "" →
        (dbGetRoom st.db m2.roomId = none ∨
          ∃ room, dbGetRoom st.db m2.roomId = some room ∧
            effMax room ≤ (playersOf st m2.roomId).length) →
        (handleRejoin st m2 now2).st = st
        ∧ (∃ emsg, (handleRejoin st m2 now2).replies = [.errorMsg emsg])
        ∧ (handleRejoin st m2 now2).broadcasts = []
        ∧ playersOf (handleRejoin st m2 now2).st m2.roomId =
            playersOf st m2.roomId
        ∧ (∀ (dm : DrawMsg) (now3 : Nat),
            (handleDraw (handleRejoin st m2 now2).conn
                (handleRejoin st m2 now2).st dm now3).1.db.drawing_events =
              st.db.drawing_events ++ [⟨st.db.nextDrawId, m2.roomId,
                m2.playerId, "draw",
                ⟨dm.points, dm.color, dm.size,
                  (if dm.tool = "" then "pen" else dm.tool)⟩, now3⟩]
            ∧ (handleDraw (handleRejoin st m2 now2).conn
                (handleRejoin st m2 now2).st dm now3).2 =
              [⟨m2.roomId, .drawOut ⟨m2.playerId, "draw", dm.points, dm.color,
                dm.size, (if dm.tool = "" then "pen" else dm.tool), now3⟩,
                some m2.playerId⟩])
        ∧ (∀ (text : String) (now3 : Nat), text ≠ "" →
            utf16Len (jsTrim text) ≠ 0 → utf16Len text ≤ 140 →
            (handleChatMessage (handleRejoin st m2 now2).conn
                (handleRejoin st m2 now2).st text now3).1.db.chat_messages =
              st.db.chat_messages ++ [⟨st.db.nextChatId, m2.roomId,
                m2.playerId, m2.playerName, jsTrim text, now3⟩])) := by
  have hj := handleJoin_rejected st m freshId now hrej
  rw [hj]
  dsimp only
  refine ⟨rfl, ⟨_, rfl⟩, rfl, rfl, ?_, ?_, ?_⟩
  · intro dm now2
    have hcr := connReady_some
      ⟨some (if m.playerId = "" then freshId else m.playerId),
        some (if m.playerName = "" then
            "Player " ++ (if m.playerId = "" then freshId else m.playerId).take 4
          else m.playerName), some m.roomId⟩
      m.roomId (if m.playerId = "" then freshId else m.playerId) rfl rfl hroom hpid
    unfold handleDraw
    rw [hcr]
    dsimp only
    obtain ⟨hf1, _, _, _⟩ := mgrAddDrawingEvent_dbFacts st m.roomId
      ⟨(if m.playerId = "" then freshId else m.playerId), "draw", dm.points,
        dm.color, dm.size, (if dm.tool = "" then "pen" else dm.tool), now2⟩ now2
    exact ⟨hf1, rfl⟩
  · intro text now2 h1 h2 h3
    exact (handleChatMessage_valid
      ⟨some (if m.playerId = "" then freshId else m.playerId),
        some (if m.playerName = "" then
            "Player " ++ (if m.playerId = "" then freshId else m.playerId).take 4
          else m.playerName), some m.roomId⟩
      st text now2 m.roomId (if m.playerId = "" then freshId else m.playerId)
      rfl rfl hroom hpid h1 h2 h3).1
  · intro m2 now2 hroom2 hpid2 hrej2
    have hr2 := handleRejoin_rejected st m2 now2 hrej2
    rw [hr2]
    dsimp only
    refine ⟨rfl, ⟨_, rfl⟩, rfl, rfl, ?_, ?_⟩
    · intro dm now3
      have hcr := connReady_some
        ⟨some m2.playerId, some m2.playerName, some m2.roomId⟩
        m2.roomId m2.playerId rfl rfl hroom2 hpid2
      unfold handleDraw
      rw [hcr]
      dsimp only
      obtain ⟨hf1, _, _, _⟩ := mgrAddDrawingEvent_dbFacts st m2.roomId
        ⟨m2.playerId, "draw", dm.points, dm.color, dm.size,
          (if dm.tool = "" then "pen" else dm.tool), now3⟩ now3
      exact ⟨hf1, rfl⟩
    · intro text now3 h1 h2 h3
      exact (handleChatMessage_valid
        ⟨some m2.playerId, some m2.playerName, some m2.roomId⟩
        st text now3 m2.roomId m2.playerId rfl rfl hroom2 hpid2 h1 h2 h3).1

/-- Witness for C10: joining the nonexistent room `"nope"` is rejected with
an error, yet a subsequent draw from the same connection is persisted into
room `"nope"`'s log; and rejoining the full room `"r"` (4/4 players) is
rejected with an error, yet a subsequent draw from that connection is
persisted into room `"r"`'s log. -/
theorem C10_rejected_join_still_writes_witness :
    (handleJoin stEmptyW ⟨"nope", "px", "PX"⟩ "f" 3).st = stEmptyW
    ∧ (∃ emsg, (handleJoin stEmptyW ⟨"nope", "px", "PX"⟩ "f" 3).replies =
        [.errorMsg emsg])
    ∧ (handleDraw (handleJoin stEmptyW ⟨"nope", "px", "PX"⟩ "f" 3).conn
        (handleJoin stEmptyW ⟨"nope", "px", "PX"⟩ "f" 3).st
        ⟨[⟨2, 3⟩], "#000000", 3, "pen"⟩ 5).1.db.drawing_events =
      stEmptyW.db.drawing_events ++
        [⟨1, "nope", "px", "draw", ⟨[⟨2, 3⟩], "#000000", 3, "pen"⟩, 5⟩]
    ∧ (handleRejoin stFullW ⟨"r", "pr", "PR", 0⟩ 4).st = stFullW
    ∧ (∃ emsg, (handleRejoin stFullW ⟨"r", "pr", "PR", 0⟩ 4).replies =
        [.errorMsg emsg])
    ∧ (handleDraw (handleRejoin stFullW ⟨"r", "pr", "PR", 0⟩ 4).conn
        (handleRejoin stFullW ⟨"r", "pr", "PR", 0⟩ 4).st
        ⟨[⟨2, 3⟩], "#000000", 3, "pen"⟩ 5).1.db.drawing_events =
      stFullW.db.drawing_events ++
        [⟨1, "r", "pr", "draw", ⟨[⟨2, 3⟩], "#000000", 3, "pen"⟩, 5⟩] := by
  have hc := C10_rejected_join_still_writes stEmptyW ⟨"nope", "px", "PX"⟩ "f" 3
    (by decide) (by decide) (Or.inl (by decide))
  have hc2 := (C10_rejected_join_still_writes stFullW ⟨"nope", "px", "PX"⟩ "f" 3
    (by decide) (by decide) (Or.inl (by decide))).2.2.2.2.2.2
    ⟨"r", "pr", "PR", 0⟩ 4 (by decide) (by decide)
    (Or.inr ⟨roomW, by decide, by decide⟩)
  exact ⟨hc.1, hc.2.1, (hc.2.2.2.2.1 ⟨[⟨2, 3⟩], "#000000", 3, "pen"⟩ 5).1,
    hc2.1, hc2.2.1, (hc2.2.2.2.2.1 ⟨[⟨2, 3⟩], "#000000", 3, "pen"⟩ 5).1⟩

end Pictochat
